import Mathlib

set_option linter.unusedVariables false

/-!
Verification of the resource-binding and pipeline-construction layer of the
shadPS4 Vulkan backend (`src/video_core/renderer_vulkan/vk_compute_pipeline.cpp`).

The shallow embedding models Vulkan object handles as natural numbers
(`VK_NULL_HANDLE` is `0`), `u32` arithmetic as `Nat` taken modulo `2 ^ 32` at
the points where the source truncates, the external collaborators (hardware
descriptor reader, staging allocator, texture cache, host device) as
uninterpreted data, and the side effects of `BindResources` as an explicit
event trace in program order.
-/

namespace Vulkan

/-- Vulkan object handles are modelled as natural numbers; `VK_NULL_HANDLE` is `0`. -/
def VK_NULL_HANDLE : Nat := 0

/-- Modulus of `u32` arithmetic. -/
def U32_MOD : Nat := 2 ^ 32

/-- The Vulkan descriptor types used by `vk_compute_pipeline.cpp`. -/
inductive DescriptorType where
  | eStorageBuffer
  | eUniformBuffer
  | eSampledImage
  | eSampler
deriving DecidableEq, Repr

/-- Shader stage flags; only the compute stage appears in this translation unit. -/
inductive ShaderStageFlags where
  | eCompute
deriving DecidableEq, Repr

/-- Pipeline bind points. -/
inductive PipelineBindPoint where
  | eCompute
  | eGraphics
deriving DecidableEq, Repr

/-- Image layouts; the source always binds images in `eGeneral`. -/
inductive ImageLayout where
  | eGeneral
  | eUndefined
deriving DecidableEq, Repr

/-- Host API result codes: success, or any non-success error (one representative). -/
inductive VkResult where
  | eSuccess
  | eErrorOutOfHostMemory
deriving DecidableEq, Repr

end Vulkan

namespace AmdGpu

/-- Modelled from the spec: the buffer hardware descriptor ("sharp"), decoded by the external
Hardware Descriptor Reader (not in src/), yields a base address and a byte size. -/
structure Buffer where
  base_address : Nat
  size : Nat
deriving DecidableEq, Repr

/-- `AmdGpu::Buffer::GetSize()`: the byte size decoded from the buffer descriptor. -/
def Buffer.GetSize (b : Buffer) : Nat := b.size

/-- Modelled from the spec: the image hardware descriptor is opaque input to the Texture
Cache's own decoding; it is modelled as its raw bits. -/
structure Image where
  bits : Nat
deriving DecidableEq, Repr

/-- Modelled from the spec: the sampler hardware descriptor is opaque input to the Texture
Cache's own decoding; it is modelled as its raw bits. -/
structure Sampler where
  bits : Nat
deriving DecidableEq, Repr

end AmdGpu

namespace Shader

/-- A buffer entry of the resource layout: hardware-descriptor location plus the
storage-vs-uniform flag. -/
structure BufferResource where
  sgpr_base : Nat
  dword_offset : Nat
  is_storage : Bool
deriving DecidableEq, Repr

/-- An image entry of the resource layout: hardware-descriptor location. -/
structure ImageResource where
  sgpr_base : Nat
  dword_offset : Nat
deriving DecidableEq, Repr

/-- A sampler entry of the resource layout: hardware-descriptor location. -/
structure SamplerResource where
  sgpr_base : Nat
  dword_offset : Nat
deriving DecidableEq, Repr

/-- The shader info consumed by the pipeline: the ordered buffer, image and sampler lists
produced by shader reflection, together with the hardware-descriptor reads.
The three `ReadUd*` fields are modelled from the spec: `Info::ReadUd<T>` (the Hardware
Descriptor Reader, external, not in src/) returns, for a location (scalar register base +
dword offset), the descriptor record currently held in emulated memory. -/
structure Info where
  buffers : List BufferResource
  images : List ImageResource
  samplers : List SamplerResource
  ReadUdBuffer : Nat → Nat → AmdGpu.Buffer
  ReadUdImage : Nat → Nat → AmdGpu.Image
  ReadUdSampler : Nat → Nat → AmdGpu.Sampler

end Shader

namespace Core

/-- `Core::MemoryManager`: passed to `BindResources` but unused there (its only use,
`GetVulkanBuffer`, is commented out in the source). -/
structure MemoryManager where
  unused : Unit := ()
deriving DecidableEq, Repr

end Core

namespace Vulkan

/-- One entry of a descriptor-set layout (`vk::DescriptorSetLayoutBinding`). -/
structure DescriptorSetLayoutBinding where
  binding : Nat
  descriptorType : DescriptorType
  descriptorCount : Nat
  stageFlags : ShaderStageFlags
deriving DecidableEq, Repr

/-- Descriptor-set layout creation flags: none, or the push-descriptor capability. -/
inductive DescriptorSetLayoutCreateFlags where
  | eNone
  | ePushDescriptorKHR
deriving DecidableEq, Repr

/-- `vk::DescriptorSetLayoutCreateInfo` as filled in by the constructor. -/
structure DescriptorSetLayoutCreateInfo where
  flags : DescriptorSetLayoutCreateFlags
  bindingCount : Nat
  pBindings : List DescriptorSetLayoutBinding

/-- `vk::PipelineLayoutCreateInfo` as filled in by the constructor; the push-constant
ranges are modelled as the list of ranges passed (always empty here). -/
structure PipelineLayoutCreateInfo where
  setLayoutCount : Nat
  pSetLayouts : List Nat
  pushConstantRangeCount : Nat
  pPushConstantRanges : List Nat

/-- `vk::PipelineShaderStageCreateInfo` as filled in by the constructor. -/
structure PipelineShaderStageCreateInfo where
  stage : ShaderStageFlags
  module : Nat
  pName : String

/-- `vk::ComputePipelineCreateInfo` as filled in by the constructor. -/
structure ComputePipelineCreateInfo where
  stage : PipelineShaderStageCreateInfo
  layout : Nat

/-- Modelled from the spec: the host API device reached through `Instance` (external).
Object creation is modelled as uninterpreted functions from create-info records to handles;
compute-pipeline creation also returns a host result code, which lets creation failure be
expressed. -/
structure Instance where
  createDescriptorSetLayout : DescriptorSetLayoutCreateInfo → Nat
  createPipelineLayout : PipelineLayoutCreateInfo → Nat
  createComputePipeline : Nat → ComputePipelineCreateInfo → VkResult × Nat

/-- The fields of `ComputePipeline` relevant to this translation unit: the copied shader
info and the three owned Vulkan objects. -/
structure ComputePipeline where
  info : Shader.Info
  desc_layout : Nat
  pipeline_layout : Nat
  pipeline : Nat

/-- One step of the constructor's binding-declaration loop over `info.buffers`
(vk_compute_pipeline.cpp:27-35): the `u32` counter is threaded as the first component and
the next binding is appended, typed from the entry's `is_storage` flag. -/
def pushBufferBinding (acc : Nat × List DescriptorSetLayoutBinding)
    (buffer : Shader.BufferResource) : Nat × List DescriptorSetLayoutBinding :=
  (acc.1 + 1,
   acc.2 ++ [{ binding := acc.1 % U32_MOD,
               descriptorType := if buffer.is_storage then .eStorageBuffer
                                 else .eUniformBuffer,
               descriptorCount := 1,
               stageFlags := .eCompute }])

/-- One step of the constructor's loop over `info.images` (vk_compute_pipeline.cpp:36-43). -/
def pushImageBinding (acc : Nat × List DescriptorSetLayoutBinding)
    (image : Shader.ImageResource) : Nat × List DescriptorSetLayoutBinding :=
  (acc.1 + 1,
   acc.2 ++ [{ binding := acc.1 % U32_MOD,
               descriptorType := .eSampledImage,
               descriptorCount := 1,
               stageFlags := .eCompute }])

/-- One step of the constructor's loop over `info.samplers` (vk_compute_pipeline.cpp:44-51). -/
def pushSamplerBinding (acc : Nat × List DescriptorSetLayoutBinding)
    (sampler : Shader.SamplerResource) : Nat × List DescriptorSetLayoutBinding :=
  (acc.1 + 1,
   acc.2 ++ [{ binding := acc.1 % U32_MOD,
               descriptorType := .eSampler,
               descriptorCount := 1,
               stageFlags := .eCompute }])

/-- The record appended by one step of the constructor's buffer loop, as a function of
the current counter value and the entry. -/
def bufBindingOf (n : Nat) (buffer : Shader.BufferResource) : DescriptorSetLayoutBinding :=
  { binding := n % U32_MOD,
    descriptorType := if buffer.is_storage then .eStorageBuffer else .eUniformBuffer,
    descriptorCount := 1,
    stageFlags := .eCompute }

/-- The record appended by one step of the constructor's image loop. -/
def imgBindingOf (n : Nat) (image : Shader.ImageResource) : DescriptorSetLayoutBinding :=
  { binding := n % U32_MOD,
    descriptorType := .eSampledImage,
    descriptorCount := 1,
    stageFlags := .eCompute }

/-- The record appended by one step of the constructor's sampler loop. -/
def sampBindingOf (n : Nat) (sampler : Shader.SamplerResource) : DescriptorSetLayoutBinding :=
  { binding := n % U32_MOD,
    descriptorType := .eSampler,
    descriptorCount := 1,
    stageFlags := .eCompute }

/-- Common shape of the constructor's three loops: increment the counter and append one
record computed from the counter and the entry. -/
def stepAppend {A B : Type} (g : Nat → A → B) (acc : Nat × List B) (a : A) :
    Nat × List B :=
  (acc.1 + 1, acc.2 ++ [g acc.1 a])

/-- The binding declarations built by `ComputePipeline::ComputePipeline`
(vk_compute_pipeline.cpp:25-51): a `u32` counter starts at zero and `binding++` assigns
sequential indices to the buffers, then the images, then the samplers, each list in
declared order. -/
def buildBindings (info : Shader.Info) : List DescriptorSetLayoutBinding :=
  (info.samplers.foldl pushSamplerBinding
    (info.images.foldl pushImageBinding
      (info.buffers.foldl pushBufferBinding (0, [])))).2

/-- `desc_layout_ci` (vk_compute_pipeline.cpp:53-57): the set layout is created with the
push-descriptor capability flag over the declared bindings. -/
def desc_layout_ci (info : Shader.Info) : DescriptorSetLayoutCreateInfo :=
  { flags := .ePushDescriptorKHR,
    bindingCount := (buildBindings info).length % U32_MOD,
    pBindings := buildBindings info }

/-- `layout_info` (vk_compute_pipeline.cpp:60-66): the pipeline layout references exactly
the one set layout just created and declares no push-constant ranges. -/
def layout_info (inst : Instance) (info : Shader.Info) : PipelineLayoutCreateInfo :=
  { setLayoutCount := 1,
    pSetLayouts := [inst.createDescriptorSetLayout (desc_layout_ci info)],
    pushConstantRangeCount := 0,
    pPushConstantRanges := [] }

/-- Outcome of running the `ComputePipeline` constructor: a constructed object, or a
process abort through `UNREACHABLE_MSG`. -/
inductive ConstructOutcome where
  | ok (p : ComputePipeline)
  | aborted (msg : String)

/-- `ComputePipeline::ComputePipeline` (vk_compute_pipeline.cpp:15-80): build the set
layout and pipeline layout from the shader info, create the compute pipeline through the
host device, and on a non-success host result hit
`UNREACHABLE_MSG("Graphics pipeline creation failed!")`, aborting the process instead of
returning an error result to the caller. -/
def ComputePipeline.construct (inst : Instance) (pipeline_cache : Nat)
    (info : Shader.Info) (module : Nat) : ConstructOutcome :=
  let shader_ci : PipelineShaderStageCreateInfo :=
    { stage := .eCompute, module := module, pName := "main" }
  let desc_layout := inst.createDescriptorSetLayout (desc_layout_ci info)
  let pipeline_layout := inst.createPipelineLayout (layout_info inst info)
  let compute_pipeline_ci : ComputePipelineCreateInfo :=
    { stage := shader_ci, layout := pipeline_layout }
  let result := inst.createComputePipeline pipeline_cache compute_pipeline_ci
  if result.1 = VkResult.eSuccess then
    .ok { info := info, desc_layout := desc_layout, pipeline_layout := pipeline_layout,
          pipeline := result.2 }
  else
    .aborted "Graphics pipeline creation failed!"

/-- `vk::DescriptorBufferInfo`: (buffer handle, offset, range). -/
structure DescriptorBufferInfo where
  buffer : Nat
  offset : Nat
  range : Nat
deriving DecidableEq, Repr

/-- `vk::DescriptorImageInfo`: (sampler handle, image-view handle, layout). -/
structure DescriptorImageInfo where
  sampler : Nat
  imageView : Nat
  imageLayout : ImageLayout
deriving DecidableEq, Repr

/-- `vk::WriteDescriptorSet` as filled in by `BindResources`; the `pBufferInfo` /
`pImageInfo` pointers are modelled as the pointed-to record (`none` for null). -/
structure WriteDescriptorSet where
  dstSet : Nat
  dstBinding : Nat
  dstArrayElement : Nat
  descriptorCount : Nat
  descriptorType : DescriptorType
  pBufferInfo : Option DescriptorBufferInfo := none
  pImageInfo : Option DescriptorImageInfo := none
deriving DecidableEq, Repr

/-- `Common::AlignUp` (common/alignment.h, external): round `n` up to the next multiple
of `a`. -/
def AlignUp (n a : Nat) : Nat := (n + a - 1) / a * a

/-- `static constexpr u64 MinUniformAlignment = 64` (vk_compute_pipeline.cpp:86). -/
def MinUniformAlignment : Nat := 64

/-- Modelled from the spec: the Staging Allocator (`StreamBuffer`, not in src/):
`allocate(size, alignment) -> (writable memory, committed offset, generation)` hands out
the current free offset rounded up to the requested alignment, and `commit(size)`
finalizes the write, advancing the free offset past the staged region. `handle` is the
allocator's backing host buffer (`staging.Handle()`), never changed by allocation. -/
structure StreamBuffer where
  handle : Nat
  free_offset : Nat
deriving DecidableEq, Repr

/-- `StreamBuffer::Map(size, alignment)`: the aligned offset of a fresh region, and the
allocator with its cursor moved to that offset. -/
def StreamBuffer.Map (sb : StreamBuffer) (size align : Nat) : Nat × StreamBuffer :=
  let offset := AlignUp sb.free_offset align
  (offset, { sb with free_offset := offset })

/-- `StreamBuffer::Commit(size)`: finalize `size` staged bytes, advancing the cursor. -/
def StreamBuffer.Commit (sb : StreamBuffer) (size : Nat) : StreamBuffer :=
  { sb with free_offset := sb.free_offset + size }

/-- Modelled from the spec: the Texture Cache (external):
`resolveImageView(descriptor) -> view handle` and
`resolveSampler(descriptor) -> sampler handle`, as pure resolution functions.
`FindImageView` stands for the view handle `*FindImageView(tsharp).image_view`; the
`OnCpuWrite` notification side effect is recorded in the event trace instead. -/
structure TextureCache where
  FindImageView : AmdGpu.Image → Nat
  GetSampler : AmdGpu.Sampler → Nat

/-- One observable side effect of `ComputePipeline::BindResources`, in program order:
a texture-cache write notification, a staged copy of `size` bytes from `src` to staging
offset `offset`, an emplace into one of the two fixed-capacity local arrays at index
`idx`, or the final batched push. -/
inductive Event where
  | onCpuWrite (addr : Nat)
  | stagingCopy (src : Nat) (size : Nat) (offset : Nat)
  | emplaceBufferInfo (idx : Nat)
  | emplaceImageInfo (idx : Nat)
  | pushDescriptorSetKHR (bindPoint : PipelineBindPoint) (layout : Nat) (set : Nat)
      (writes : List WriteDescriptorSet)
deriving DecidableEq, Repr

/-- Whether an event is the batched descriptor push. -/
def Event.isPush : Event → Bool
  | .pushDescriptorSetKHR _ _ _ _ => true
  | _ => false

/-- Capacity check for one recorded effect: `buffer_infos` is a
`boost::container::static_vector` of capacity 4 and `image_infos` one of capacity 8
(vk_compute_pipeline.cpp:96-97); an emplace at index `i` is in bounds exactly when `i` is
below the array's capacity. -/
def eventInBounds : Event → Bool
  | .emplaceBufferInfo i => decide (i < 4)
  | .emplaceImageInfo i => decide (i < 8)
  | _ => true

/-- The local state threaded through `BindResources`: the staging allocator, the two
descriptor-info arrays, the accumulated descriptor writes, the `u32` binding counter, and
the trace of side effects so far. -/
structure BindState where
  staging : StreamBuffer
  buffer_infos : List DescriptorBufferInfo
  image_infos : List DescriptorImageInfo
  set_writes : List WriteDescriptorSet
  binding : Nat
  trace : List Event

/-- Body of the buffer loop of `BindResources` (vk_compute_pipeline.cpp:101-118): decode
the buffer descriptor, notify the texture cache of the CPU write, stage `size` bytes from
the decoded address through `map_staging` (`Map` at 64-byte alignment, copy, `Commit`),
emplace the buffer info, and push the descriptor write for the next sequential binding
index, typed from the entry's `is_storage` flag. -/
def bindBuffer (info : Shader.Info) (st : BindState)
    (buffer : Shader.BufferResource) : BindState :=
  let vsharp := info.ReadUdBuffer buffer.sgpr_base buffer.dword_offset
  let size := vsharp.GetSize
  let addr := vsharp.base_address
  let mapped := st.staging.Map size MinUniformAlignment
  let offset := mapped.1
  { staging := mapped.2.Commit size,
    buffer_infos := st.buffer_infos ++ [⟨st.staging.handle, offset, size⟩],
    image_infos := st.image_infos,
    set_writes := st.set_writes ++
      [{ dstSet := VK_NULL_HANDLE, dstBinding := st.binding % U32_MOD,
         dstArrayElement := 0, descriptorCount := 1,
         descriptorType := if buffer.is_storage then .eStorageBuffer
                           else .eUniformBuffer,
         pBufferInfo := some ⟨st.staging.handle, offset, size⟩,
         pImageInfo := none }],
    binding := st.binding + 1,
    trace := st.trace ++
      [.onCpuWrite addr, .stagingCopy addr size offset,
       .emplaceBufferInfo st.buffer_infos.length] }

/-- Body of the image loop of `BindResources` (vk_compute_pipeline.cpp:120-132): decode
the image descriptor, resolve an image view through the texture cache, emplace the image
info with a null sampler and general layout, and push the sampled-image write for the
next sequential binding index. -/
def bindImage (info : Shader.Info) (texture_cache : TextureCache) (st : BindState)
    (image : Shader.ImageResource) : BindState :=
  let tsharp := info.ReadUdImage image.sgpr_base image.dword_offset
  let image_view := texture_cache.FindImageView tsharp
  { st with
    image_infos := st.image_infos ++ [⟨VK_NULL_HANDLE, image_view, .eGeneral⟩],
    set_writes := st.set_writes ++
      [{ dstSet := VK_NULL_HANDLE, dstBinding := st.binding % U32_MOD,
         dstArrayElement := 0, descriptorCount := 1,
         descriptorType := .eSampledImage,
         pBufferInfo := none,
         pImageInfo := some ⟨VK_NULL_HANDLE, image_view, .eGeneral⟩ }],
    binding := st.binding + 1,
    trace := st.trace ++ [.emplaceImageInfo st.image_infos.length] }

/-- Body of the sampler loop of `BindResources` (vk_compute_pipeline.cpp:133-145): decode
the sampler descriptor, resolve a sampler through the texture cache, emplace the image
info with a null image view and general layout, and push the sampler write for the next
sequential binding index. -/
def bindSampler (info : Shader.Info) (texture_cache : TextureCache) (st : BindState)
    (sampler : Shader.SamplerResource) : BindState :=
  let ssharp := info.ReadUdSampler sampler.sgpr_base sampler.dword_offset
  let vk_sampler := texture_cache.GetSampler ssharp
  { st with
    image_infos := st.image_infos ++ [⟨vk_sampler, VK_NULL_HANDLE, .eGeneral⟩],
    set_writes := st.set_writes ++
      [{ dstSet := VK_NULL_HANDLE, dstBinding := st.binding % U32_MOD,
         dstArrayElement := 0, descriptorCount := 1,
         descriptorType := .eSampler,
         pBufferInfo := none,
         pImageInfo := some ⟨vk_sampler, VK_NULL_HANDLE, .eGeneral⟩ }],
    binding := st.binding + 1,
    trace := st.trace ++ [.emplaceImageInfo st.image_infos.length] }

/-- The buffer loop of `BindResources`, run over the remaining entries. -/
def bindBuffers (info : Shader.Info) : BindState → List Shader.BufferResource → BindState
  | st, [] => st
  | st, buffer :: rest => bindBuffers info (bindBuffer info st buffer) rest

/-- The image loop of `BindResources`, run over the remaining entries. -/
def bindImages (info : Shader.Info) (texture_cache : TextureCache) :
    BindState → List Shader.ImageResource → BindState
  | st, [] => st
  | st, image :: rest => bindImages info texture_cache (bindImage info texture_cache st image) rest

/-- The sampler loop of `BindResources`, run over the remaining entries. -/
def bindSamplers (info : Shader.Info) (texture_cache : TextureCache) :
    BindState → List Shader.SamplerResource → BindState
  | st, [] => st
  | st, sampler :: rest =>
      bindSamplers info texture_cache (bindSampler info texture_cache st sampler) rest

/-- `ComputePipeline::BindResources` (vk_compute_pipeline.cpp:84-152): process the
buffers, then the images, then the samplers, numbering bindings sequentially from zero
with the same rule as the constructor, and, when any descriptor write was produced, push
the whole batch in one `pushDescriptorSetKHR` call on the compute bind point with the
pipeline layout and set index 0. The `memory` parameter is unused in the source (its only
use is commented out). -/
def ComputePipeline.BindResources (p : ComputePipeline) (memory : Core.MemoryManager)
    (staging : StreamBuffer) (texture_cache : TextureCache) : BindState :=
  let st : BindState :=
    { staging := staging, buffer_infos := [], image_infos := [], set_writes := [],
      binding := 0, trace := [] }
  let st := bindBuffers p.info st p.info.buffers
  let st := bindImages p.info texture_cache st p.info.images
  let st := bindSamplers p.info texture_cache st p.info.samplers
  if st.set_writes.isEmpty then st
  else
    { st with
      trace := st.trace ++
        [.pushDescriptorSetKHR .eCompute p.pipeline_layout 0 st.set_writes] }

/-- The state of `BindResources` after its three loops, just before the conditional push
(vk_compute_pipeline.cpp:147). -/
def ComputePipeline.bindLoopState (p : ComputePipeline) (staging : StreamBuffer)
    (texture_cache : TextureCache) : BindState :=
  bindSamplers p.info texture_cache
    (bindImages p.info texture_cache
      (bindBuffers p.info
        { staging := staging, buffer_infos := [], image_infos := [], set_writes := [],
          binding := 0, trace := [] } p.info.buffers) p.info.images) p.info.samplers

/-- The renderer state visible to one `BindResources` call: the pipeline object, the
unused memory manager, the staging allocator, the texture cache, and the history of
recorded side effects. -/
structure World where
  pipelineObj : ComputePipeline
  memory : Core.MemoryManager
  staging : StreamBuffer
  texture_cache : TextureCache
  trace : List Event

/-- One `BindResources` call seen as a transition on the renderer state: the staging
allocator advances and the call's side effects are appended to the history.
`BindResources` is a `const` member function and writes no field of the pipeline object. -/
def World.BindResourcesStep (w : World) : World :=
  let out := w.pipelineObj.BindResources w.memory w.staging w.texture_cache
  { w with staging := out.staging, trace := w.trace ++ out.trace }

/-! Concrete fixtures used to evaluate the verified statements on closed inputs. -/

/-- A concrete memory manager. -/
def memEx : Core.MemoryManager := {}

/-- A concrete staging allocator state with a deliberately unaligned cursor. -/
def stagingEx : StreamBuffer := { handle := 7, free_offset := 5 }

/-- A concrete texture cache resolving distinct nonzero handles. -/
def tcEx : TextureCache :=
  { FindImageView := fun t => t.bits + 100,
    GetSampler := fun s => s.bits + 200 }

/-- A concrete shader info with one storage buffer, one image and one sampler. -/
def infoEx : Shader.Info :=
  { buffers := [{ sgpr_base := 0, dword_offset := 0, is_storage := true }],
    images := [{ sgpr_base := 4, dword_offset := 0 }],
    samplers := [{ sgpr_base := 8, dword_offset := 0 }],
    ReadUdBuffer := fun _ _ => { base_address := 4096, size := 256 },
    ReadUdImage := fun _ _ => { bits := 11 },
    ReadUdSampler := fun _ _ => { bits := 22 } }

/-- A concrete pipeline object over `infoEx`. -/
def pipelineEx : ComputePipeline :=
  { info := infoEx, desc_layout := 1, pipeline_layout := 2, pipeline := 3 }

/-- A concrete renderer state over the fixtures. -/
def worldEx : World :=
  { pipelineObj := pipelineEx, memory := memEx, staging := stagingEx,
    texture_cache := tcEx, trace := [] }

/-- A concrete host device whose compute-pipeline creation fails. -/
def failInstance : Instance :=
  { createDescriptorSetLayout := fun _ => 1,
    createPipelineLayout := fun _ => 2,
    createComputePipeline := fun _ _ => (VkResult.eErrorOutOfHostMemory, 0) }

/-! General lemmas about the constructor's binding-declaration loops. -/

/-- Each of the three loop bodies is an instance of `stepAppend`. -/
theorem pushBufferBinding_eq : pushBufferBinding = stepAppend bufBindingOf := rfl

/-- The image loop body as a `stepAppend`. -/
theorem pushImageBinding_eq : pushImageBinding = stepAppend imgBindingOf := rfl

/-- The sampler loop body as a `stepAppend`. -/
theorem pushSamplerBinding_eq : pushSamplerBinding = stepAppend sampBindingOf := rfl

/-- Folding a `stepAppend` advances the counter by the number of entries. -/
theorem foldl_stepAppend_fst {A B : Type} (g : Nat → A → B) (l : List A)
    (p : Nat × List B) : (l.foldl (stepAppend g) p).1 = p.1 + l.length := by
  induction l generalizing p with
  | nil => simp
  | cons a rest ih =>
      simp only [List.foldl_cons, List.length_cons]
      rw [ih]
      simp only [stepAppend]
      omega

/-- Folding a `stepAppend` appends one record per entry. -/
theorem foldl_stepAppend_length {A B : Type} (g : Nat → A → B) (l : List A)
    (p : Nat × List B) : (l.foldl (stepAppend g) p).2.length = p.2.length + l.length := by
  induction l generalizing p with
  | nil => simp
  | cons a rest ih =>
      simp only [List.foldl_cons, List.length_cons]
      rw [ih]
      simp only [stepAppend, List.length_append, List.length_singleton]
      omega

/-- Folding a `stepAppend` preserves the records already accumulated. -/
theorem foldl_stepAppend_getElem_left {A B : Type} (g : Nat → A → B) (l : List A)
    (p : Nat × List B) (i : Nat) (x : B) (h : p.2[i]? = some x) :
    (l.foldl (stepAppend g) p).2[i]? = some x := by
  induction l generalizing p with
  | nil => simpa using h
  | cons a rest ih =>
      have hi : i < p.2.length := (List.getElem?_eq_some.mp h).1
      simp only [List.foldl_cons]
      refine ih (stepAppend g p a) ?_
      show (p.2 ++ [g p.1 a])[i]? = some x
      rw [List.getElem?_append_left hi]
      exact h

/-- The record appended for the `i`-th entry of a `stepAppend` fold: it sits right after
the accumulated records and is computed from the counter advanced by `i`. -/
theorem foldl_stepAppend_entry {A B : Type} (g : Nat → A → B) (l : List A)
    (p : Nat × List B) (i : Nat) (hi : i < l.length) :
    (l.foldl (stepAppend g) p).2[p.2.length + i]? = some (g (p.1 + i) (l.get ⟨i, hi⟩)) := by
  induction l generalizing p i with
  | nil => exact absurd hi (by simp)
  | cons a rest ih =>
      cases i with
      | zero =>
          simp only [List.foldl_cons, List.get]
          have hx : (p.2 ++ [g p.1 a])[p.2.length]? = some (g p.1 a) :=
            List.getElem?_concat_length _ _
          simpa [stepAppend] using
            foldl_stepAppend_getElem_left g rest (stepAppend g p a) p.2.length (g p.1 a)
              (by exact hx)
      | succ j =>
          simp only [List.foldl_cons]
          have hj : j < rest.length := Nat.lt_of_succ_lt_succ hi
          have := ih (stepAppend g p a) j hj
          simp only [stepAppend, List.length_append, List.length_singleton] at this
          have harith : p.2.length + 1 + j = p.2.length + (j + 1) := by omega
          have harith2 : p.1 + 1 + j = p.1 + (j + 1) := by omega
          rw [harith, harith2] at this
          simpa [List.get] using this

/-- Every record produced by a `stepAppend` fold is an accumulated record or comes from
one of the entries. -/
theorem foldl_stepAppend_mem {A B : Type} (g : Nat → A → B) (l : List A)
    (p : Nat × List B) (x : B) (hx : x ∈ (l.foldl (stepAppend g) p).2) :
    x ∈ p.2 ∨ ∃ n a, a ∈ l ∧ x = g n a := by
  induction l generalizing p with
  | nil => exact .inl (by simpa using hx)
  | cons a rest ih =>
      simp only [List.foldl_cons] at hx
      rcases ih (stepAppend g p a) hx with h | ⟨n, a', ha', rfl⟩
      · rcases List.mem_append.mp h with h | h
        · exact .inl h
        · exact .inr ⟨p.1, a, by simp, by simpa using h⟩
      · exact .inr ⟨n, a', by simp [ha'], rfl⟩

/-- `buildBindings` written through `stepAppend`. -/
theorem buildBindings_eq (info : Shader.Info) :
    buildBindings info =
      (info.samplers.foldl (stepAppend sampBindingOf)
        (info.images.foldl (stepAppend imgBindingOf)
          (info.buffers.foldl (stepAppend bufBindingOf) (0, [])))).2 := by
  simp only [buildBindings, pushBufferBinding_eq, pushImageBinding_eq, pushSamplerBinding_eq]

/-- The constructor declares one binding per resource entry. -/
theorem buildBindings_length (info : Shader.Info) :
    (buildBindings info).length =
      info.buffers.length + info.images.length + info.samplers.length := by
  rw [buildBindings_eq]
  rw [foldl_stepAppend_length, foldl_stepAppend_length, foldl_stepAppend_length]
  simp [Nat.add_assoc]

/-- The binding the constructor declares for the `i`-th buffer entry. -/
theorem buildBindings_buffer_entry (info : Shader.Info) (i : Nat)
    (hi : i < info.buffers.length) :
    (buildBindings info)[i]? = some (bufBindingOf i (info.buffers.get ⟨i, hi⟩)) := by
  rw [buildBindings_eq]
  have h1 := foldl_stepAppend_entry bufBindingOf info.buffers (0, []) i hi
  simp only [List.length_nil, Nat.zero_add] at h1
  exact foldl_stepAppend_getElem_left _ _ _ _ _
    (foldl_stepAppend_getElem_left _ _ _ _ _ h1)

/-- The binding the constructor declares for the `i`-th image entry. -/
theorem buildBindings_image_entry (info : Shader.Info) (i : Nat)
    (hi : i < info.images.length) :
    (buildBindings info)[info.buffers.length + i]? =
      some (imgBindingOf (info.buffers.length + i) (info.images.get ⟨i, hi⟩)) := by
  rw [buildBindings_eq]
  have hfst : (info.buffers.foldl (stepAppend bufBindingOf) (0, [])).1 =
      info.buffers.length := by rw [foldl_stepAppend_fst]; simp
  have hlen : (info.buffers.foldl (stepAppend bufBindingOf) (0, [])).2.length =
      info.buffers.length := by rw [foldl_stepAppend_length]; simp
  have h1 := foldl_stepAppend_entry imgBindingOf info.images
    (info.buffers.foldl (stepAppend bufBindingOf) (0, [])) i hi
  rw [hfst, hlen] at h1
  exact foldl_stepAppend_getElem_left _ _ _ _ _ h1

/-- The binding the constructor declares for the `j`-th sampler entry. -/
theorem buildBindings_sampler_entry (info : Shader.Info) (j : Nat)
    (hj : j < info.samplers.length) :
    (buildBindings info)[info.buffers.length + info.images.length + j]? =
      some (sampBindingOf (info.buffers.length + info.images.length + j)
        (info.samplers.get ⟨j, hj⟩)) := by
  rw [buildBindings_eq]
  have hfst : (info.images.foldl (stepAppend imgBindingOf)
      (info.buffers.foldl (stepAppend bufBindingOf) (0, []))).1 =
      info.buffers.length + info.images.length := by
    rw [foldl_stepAppend_fst, foldl_stepAppend_fst]; simp
  have hlen : (info.images.foldl (stepAppend imgBindingOf)
      (info.buffers.foldl (stepAppend bufBindingOf) (0, []))).2.length =
      info.buffers.length + info.images.length := by
    rw [foldl_stepAppend_length, foldl_stepAppend_length]; simp
  have h1 := foldl_stepAppend_entry sampBindingOf info.samplers
    (info.images.foldl (stepAppend imgBindingOf)
      (info.buffers.foldl (stepAppend bufBindingOf) (0, []))) j hj
  rw [hfst, hlen] at h1
  exact h1

/-- Every declared binding is compute-stage-only with descriptor count 1. -/
theorem buildBindings_stage_count (info : Shader.Info) :
    ∀ b ∈ buildBindings info,
      b.stageFlags = ShaderStageFlags.eCompute ∧ b.descriptorCount = 1 := by
  intro b hb
  rw [buildBindings_eq] at hb
  rcases foldl_stepAppend_mem _ _ _ _ hb with h | ⟨n, a, _, rfl⟩
  · rcases foldl_stepAppend_mem _ _ _ _ h with h2 | ⟨n, a, _, rfl⟩
    · rcases foldl_stepAppend_mem _ _ _ _ h2 with h3 | ⟨n, a, _, rfl⟩
      · simp at h3
      · simp [bufBindingOf]
    · simp [imgBindingOf]
  · simp [sampBindingOf]

/-! General lemmas about the buffer loop of `BindResources`. -/

/-- Aligning up yields a multiple of the alignment. -/
theorem AlignUp_mod (n a : Nat) : AlignUp n a % a = 0 := Nat.mul_mod_left _ _

/-- The buffer loop advances the binding counter once per entry. -/
theorem bindBuffers_binding (info : Shader.Info) (l : List Shader.BufferResource)
    (st : BindState) : (bindBuffers info st l).binding = st.binding + l.length := by
  induction l generalizing st with
  | nil => simp [bindBuffers]
  | cons b rest ih =>
      simp only [bindBuffers, List.length_cons]
      rw [ih]
      simp only [bindBuffer]
      omega

/-- The buffer loop emplaces one buffer info per entry. -/
theorem bindBuffers_buffer_infos_length (info : Shader.Info)
    (l : List Shader.BufferResource) (st : BindState) :
    (bindBuffers info st l).buffer_infos.length = st.buffer_infos.length + l.length := by
  induction l generalizing st with
  | nil => simp [bindBuffers]
  | cons b rest ih =>
      simp only [bindBuffers, List.length_cons]
      rw [ih]
      simp only [bindBuffer, List.length_append, List.length_singleton]
      omega

/-- The buffer loop records one descriptor write per entry. -/
theorem bindBuffers_set_writes_length (info : Shader.Info)
    (l : List Shader.BufferResource) (st : BindState) :
    (bindBuffers info st l).set_writes.length = st.set_writes.length + l.length := by
  induction l generalizing st with
  | nil => simp [bindBuffers]
  | cons b rest ih =>
      simp only [bindBuffers, List.length_cons]
      rw [ih]
      simp only [bindBuffer, List.length_append, List.length_singleton]
      omega

/-- The buffer loop records three trace events per entry. -/
theorem bindBuffers_trace_length (info : Shader.Info) (l : List Shader.BufferResource)
    (st : BindState) :
    (bindBuffers info st l).trace.length = st.trace.length + 3 * l.length := by
  induction l generalizing st with
  | nil => simp [bindBuffers]
  | cons b rest ih =>
      simp only [bindBuffers, List.length_cons]
      rw [ih]
      simp only [bindBuffer, List.length_append, List.length_cons, List.length_nil]
      omega

/-- The buffer loop never touches `image_infos`. -/
theorem bindBuffers_image_infos (info : Shader.Info) (l : List Shader.BufferResource)
    (st : BindState) : (bindBuffers info st l).image_infos = st.image_infos := by
  induction l generalizing st with
  | nil => rfl
  | cons b rest ih =>
      simp only [bindBuffers]
      rw [ih]
      rfl

/-- The buffer loop never changes the staging allocator's backing buffer handle. -/
theorem bindBuffers_staging_handle (info : Shader.Info) (l : List Shader.BufferResource)
    (st : BindState) : (bindBuffers info st l).staging.handle = st.staging.handle := by
  induction l generalizing st with
  | nil => rfl
  | cons b rest ih =>
      simp only [bindBuffers]
      rw [ih]
      simp [bindBuffer, StreamBuffer.Map, StreamBuffer.Commit]

/-- The buffer loop preserves buffer infos already recorded. -/
theorem bindBuffers_buffer_infos_getElem (info : Shader.Info)
    (l : List Shader.BufferResource) (st : BindState) (i : Nat)
    (x : DescriptorBufferInfo) (h : st.buffer_infos[i]? = some x) :
    (bindBuffers info st l).buffer_infos[i]? = some x := by
  induction l generalizing st with
  | nil => simpa [bindBuffers] using h
  | cons b rest ih =>
      have hi : i < st.buffer_infos.length := (List.getElem?_eq_some.mp h).1
      simp only [bindBuffers]
      exact ih _ (by simpa [bindBuffer] using (List.getElem?_append_left hi).trans h)

/-- The buffer loop preserves descriptor writes already recorded. -/
theorem bindBuffers_set_writes_getElem (info : Shader.Info)
    (l : List Shader.BufferResource) (st : BindState) (i : Nat)
    (x : WriteDescriptorSet) (h : st.set_writes[i]? = some x) :
    (bindBuffers info st l).set_writes[i]? = some x := by
  induction l generalizing st with
  | nil => simpa [bindBuffers] using h
  | cons b rest ih =>
      have hi : i < st.set_writes.length := (List.getElem?_eq_some.mp h).1
      simp only [bindBuffers]
      exact ih _ (by simpa [bindBuffer] using (List.getElem?_append_left hi).trans h)

/-- The buffer loop preserves trace events already recorded. -/
theorem bindBuffers_trace_getElem (info : Shader.Info) (l : List Shader.BufferResource)
    (st : BindState) (i : Nat) (x : Event) (h : st.trace[i]? = some x) :
    (bindBuffers info st l).trace[i]? = some x := by
  induction l generalizing st with
  | nil => simpa [bindBuffers] using h
  | cons b rest ih =>
      have hi : i < st.trace.length := (List.getElem?_eq_some.mp h).1
      simp only [bindBuffers]
      exact ih _ (by simpa [bindBuffer] using (List.getElem?_append_left hi).trans h)

/-- The buffer loop pushes no descriptor batch. -/
theorem bindBuffers_filter_push (info : Shader.Info) (l : List Shader.BufferResource)
    (st : BindState) :
    (bindBuffers info st l).trace.filter Event.isPush = st.trace.filter Event.isPush := by
  induction l generalizing st with
  | nil => rfl
  | cons b rest ih =>
      simp only [bindBuffers]
      rw [ih]
      simp [bindBuffer, List.filter_append, Event.isPush]

/-- If at most 4 buffer entries remain to be emplaced into `buffer_infos`, every emplace
of the buffer loop stays within the array's capacity. -/
theorem bindBuffers_all_bounds (info : Shader.Info) (l : List Shader.BufferResource)
    (st : BindState) (h : st.trace.all eventInBounds = true)
    (hcap : st.buffer_infos.length + l.length ≤ 4) :
    (bindBuffers info st l).trace.all eventInBounds = true := by
  induction l generalizing st with
  | nil => simpa [bindBuffers] using h
  | cons b rest ih =>
      simp only [bindBuffers]
      apply ih
      · simp only [bindBuffer, List.all_append, h, Bool.true_and, List.all_cons,
          List.all_nil, eventInBounds, Bool.and_true]
        simp only [List.length_cons] at hcap
        simp only [decide_eq_true_eq]
        omega
      · simp only [bindBuffer, List.length_append, List.length_singleton]
        simp only [List.length_cons] at hcap
        omega

/-- What the buffer loop does for its `i`-th entry: notify the texture cache of the
decoded address, immediately afterwards stage exactly `GetSize` bytes from that address
at a 64-byte-aligned offset, emplace the buffer info `(staging handle, offset, size)` at
the next `buffer_infos` index, and record a descriptor write at the next sequential
binding index whose type follows the `is_storage` flag and whose buffer info is that same
triple. -/
theorem bindBuffers_entry (info : Shader.Info) (l : List Shader.BufferResource)
    (st : BindState) (i : Nat) (hi : i < l.length) :
    ∃ offset, offset % MinUniformAlignment = 0 ∧
      (bindBuffers info st l).trace[st.trace.length + 3 * i]? =
        some (.onCpuWrite (info.ReadUdBuffer (l.get ⟨i, hi⟩).sgpr_base
          (l.get ⟨i, hi⟩).dword_offset).base_address) ∧
      (bindBuffers info st l).trace[st.trace.length + 3 * i + 1]? =
        some (.stagingCopy
          (info.ReadUdBuffer (l.get ⟨i, hi⟩).sgpr_base
            (l.get ⟨i, hi⟩).dword_offset).base_address
          (info.ReadUdBuffer (l.get ⟨i, hi⟩).sgpr_base
            (l.get ⟨i, hi⟩).dword_offset).GetSize offset) ∧
      (bindBuffers info st l).trace[st.trace.length + 3 * i + 2]? =
        some (.emplaceBufferInfo (st.buffer_infos.length + i)) ∧
      (bindBuffers info st l).buffer_infos[st.buffer_infos.length + i]? =
        some ⟨st.staging.handle, offset,
          (info.ReadUdBuffer (l.get ⟨i, hi⟩).sgpr_base
            (l.get ⟨i, hi⟩).dword_offset).GetSize⟩ ∧
      (bindBuffers info st l).set_writes[st.set_writes.length + i]? =
        some { dstSet := VK_NULL_HANDLE,
               dstBinding := (st.binding + i) % U32_MOD,
               dstArrayElement := 0,
               descriptorCount := 1,
               descriptorType := if (l.get ⟨i, hi⟩).is_storage
                                 then .eStorageBuffer else .eUniformBuffer,
               pBufferInfo := some ⟨st.staging.handle, offset,
                 (info.ReadUdBuffer (l.get ⟨i, hi⟩).sgpr_base
                   (l.get ⟨i, hi⟩).dword_offset).GetSize⟩,
               pImageInfo := none } := by
  induction l generalizing st i with
  | nil => exact absurd hi (by simp)
  | cons b rest ih =>
      cases i with
      | zero =>
          refine ⟨AlignUp st.staging.free_offset MinUniformAlignment,
            AlignUp_mod _ _, ?_, ?_, ?_, ?_, ?_⟩
          all_goals simp only [bindBuffers, List.get, Nat.mul_zero, Nat.add_zero]
          · apply bindBuffers_trace_getElem
            simp only [bindBuffer]
            rw [List.getElem?_append_right (by omega)]
            simp
          · apply bindBuffers_trace_getElem
            simp only [bindBuffer, StreamBuffer.Map]
            rw [List.getElem?_append_right (by omega)]
            simp
          · apply bindBuffers_trace_getElem
            simp only [bindBuffer]
            rw [List.getElem?_append_right (by omega)]
            simp
          · apply bindBuffers_buffer_infos_getElem
            simp only [bindBuffer, StreamBuffer.Map]
            exact List.getElem?_concat_length _ _
          · apply bindBuffers_set_writes_getElem
            simp only [bindBuffer, StreamBuffer.Map]
            exact List.getElem?_concat_length _ _
      | succ j =>
          have hj : j < rest.length := Nat.lt_of_succ_lt_succ hi
          obtain ⟨offset, hmod, h1, h2, h3, h4, h5⟩ :=
            ih (bindBuffer info st b) j hj
          have htr : (bindBuffer info st b).trace.length = st.trace.length + 3 := by
            simp [bindBuffer]
          have hbi : (bindBuffer info st b).buffer_infos.length =
              st.buffer_infos.length + 1 := by simp [bindBuffer]
          have hsw : (bindBuffer info st b).set_writes.length =
              st.set_writes.length + 1 := by simp [bindBuffer]
          have hbd : (bindBuffer info st b).binding = st.binding + 1 := rfl
          have hhd : (bindBuffer info st b).staging.handle = st.staging.handle := by
            simp [bindBuffer, StreamBuffer.Map, StreamBuffer.Commit]
          rw [htr] at h1 h2 h3
          rw [hbi] at h3 h4
          rw [hsw] at h5
          rw [hbd] at h5
          rw [hhd] at h4 h5
          refine ⟨offset, hmod, ?_, ?_, ?_, ?_, ?_⟩
          all_goals simp only [bindBuffers, List.get]
          · have harith : st.trace.length + 3 * (j + 1) = st.trace.length + 3 + 3 * j := by
              omega
            rw [harith]
            exact h1
          · have harith : st.trace.length + 3 * (j + 1) + 1 =
                st.trace.length + 3 + 3 * j + 1 := by omega
            rw [harith]
            exact h2
          · have harith : st.trace.length + 3 * (j + 1) + 2 =
                st.trace.length + 3 + 3 * j + 2 := by omega
            have harith2 : st.buffer_infos.length + (j + 1) =
                st.buffer_infos.length + 1 + j := by omega
            rw [harith, harith2]
            exact h3
          · have harith : st.buffer_infos.length + (j + 1) =
                st.buffer_infos.length + 1 + j := by omega
            rw [harith]
            exact h4
          · have harith : st.set_writes.length + (j + 1) =
                st.set_writes.length + 1 + j := by omega
            have harith2 : st.binding + (j + 1) = st.binding + 1 + j := by omega
            rw [harith, harith2]
            exact h5

/-! General lemmas about the image loop of `BindResources`. -/

/-- The image loop advances the binding counter once per entry. -/
theorem bindImages_binding (info : Shader.Info) (tc : TextureCache)
    (l : List Shader.ImageResource) (st : BindState) :
    (bindImages info tc st l).binding = st.binding + l.length := by
  induction l generalizing st with
  | nil => simp [bindImages]
  | cons x rest ih =>
      simp only [bindImages, List.length_cons]
      rw [ih]
      simp only [bindImage]
      omega

/-- The image loop emplaces one image info per entry. -/
theorem bindImages_image_infos_length (info : Shader.Info) (tc : TextureCache)
    (l : List Shader.ImageResource) (st : BindState) :
    (bindImages info tc st l).image_infos.length = st.image_infos.length + l.length := by
  induction l generalizing st with
  | nil => simp [bindImages]
  | cons x rest ih =>
      simp only [bindImages, List.length_cons]
      rw [ih]
      simp only [bindImage, List.length_append, List.length_singleton]
      omega

/-- The image loop records one descriptor write per entry. -/
theorem bindImages_set_writes_length (info : Shader.Info) (tc : TextureCache)
    (l : List Shader.ImageResource) (st : BindState) :
    (bindImages info tc st l).set_writes.length = st.set_writes.length + l.length := by
  induction l generalizing st with
  | nil => simp [bindImages]
  | cons x rest ih =>
      simp only [bindImages, List.length_cons]
      rw [ih]
      simp only [bindImage, List.length_append, List.length_singleton]
      omega

/-- The image loop records one trace event per entry. -/
theorem bindImages_trace_length (info : Shader.Info) (tc : TextureCache)
    (l : List Shader.ImageResource) (st : BindState) :
    (bindImages info tc st l).trace.length = st.trace.length + l.length := by
  induction l generalizing st with
  | nil => simp [bindImages]
  | cons x rest ih =>
      simp only [bindImages, List.length_cons]
      rw [ih]
      simp only [bindImage, List.length_append, List.length_singleton]
      omega

/-- The image loop never touches `buffer_infos`. -/
theorem bindImages_buffer_infos (info : Shader.Info) (tc : TextureCache)
    (l : List Shader.ImageResource) (st : BindState) :
    (bindImages info tc st l).buffer_infos = st.buffer_infos := by
  induction l generalizing st with
  | nil => rfl
  | cons x rest ih =>
      simp only [bindImages]
      rw [ih]
      rfl

/-- The image loop never touches the staging allocator. -/
theorem bindImages_staging (info : Shader.Info) (tc : TextureCache)
    (l : List Shader.ImageResource) (st : BindState) :
    (bindImages info tc st l).staging = st.staging := by
  induction l generalizing st with
  | nil => rfl
  | cons x rest ih =>
      simp only [bindImages]
      rw [ih]
      rfl

/-- The image loop preserves image infos already recorded. -/
theorem bindImages_image_infos_getElem (info : Shader.Info) (tc : TextureCache)
    (l : List Shader.ImageResource) (st : BindState) (i : Nat)
    (x : DescriptorImageInfo) (h : st.image_infos[i]? = some x) :
    (bindImages info tc st l).image_infos[i]? = some x := by
  induction l generalizing st with
  | nil => simpa [bindImages] using h
  | cons e rest ih =>
      have hi : i < st.image_infos.length := (List.getElem?_eq_some.mp h).1
      simp only [bindImages]
      exact ih _ (by simpa [bindImage] using (List.getElem?_append_left hi).trans h)

/-- The image loop preserves descriptor writes already recorded. -/
theorem bindImages_set_writes_getElem (info : Shader.Info) (tc : TextureCache)
    (l : List Shader.ImageResource) (st : BindState) (i : Nat)
    (x : WriteDescriptorSet) (h : st.set_writes[i]? = some x) :
    (bindImages info tc st l).set_writes[i]? = some x := by
  induction l generalizing st with
  | nil => simpa [bindImages] using h
  | cons e rest ih =>
      have hi : i < st.set_writes.length := (List.getElem?_eq_some.mp h).1
      simp only [bindImages]
      exact ih _ (by simpa [bindImage] using (List.getElem?_append_left hi).trans h)

/-- The image loop preserves trace events already recorded. -/
theorem bindImages_trace_getElem (info : Shader.Info) (tc : TextureCache)
    (l : List Shader.ImageResource) (st : BindState) (i : Nat) (x : Event)
    (h : st.trace[i]? = some x) : (bindImages info tc st l).trace[i]? = some x := by
  induction l generalizing st with
  | nil => simpa [bindImages] using h
  | cons e rest ih =>
      have hi : i < st.trace.length := (List.getElem?_eq_some.mp h).1
      simp only [bindImages]
      exact ih _ (by simpa [bindImage] using (List.getElem?_append_left hi).trans h)

/-- The image loop pushes no descriptor batch. -/
theorem bindImages_filter_push (info : Shader.Info) (tc : TextureCache)
    (l : List Shader.ImageResource) (st : BindState) :
    (bindImages info tc st l).trace.filter Event.isPush =
      st.trace.filter Event.isPush := by
  induction l generalizing st with
  | nil => rfl
  | cons e rest ih =>
      simp only [bindImages]
      rw [ih]
      simp [bindImage, List.filter_append, Event.isPush]

/-- If at most 8 entries remain to be emplaced into `image_infos`, every emplace of the
image loop stays within the array's capacity. -/
theorem bindImages_all_bounds (info : Shader.Info) (tc : TextureCache)
    (l : List Shader.ImageResource) (st : BindState)
    (h : st.trace.all eventInBounds = true)
    (hcap : st.image_infos.length + l.length ≤ 8) :
    (bindImages info tc st l).trace.all eventInBounds = true := by
  induction l generalizing st with
  | nil => simpa [bindImages] using h
  | cons e rest ih =>
      simp only [bindImages]
      apply ih
      · simp only [bindImage, List.all_append, h, Bool.true_and, List.all_cons,
          List.all_nil, eventInBounds, Bool.and_true]
        simp only [List.length_cons] at hcap
        simp only [decide_eq_true_eq]
        omega
      · simp only [bindImage, List.length_append, List.length_singleton]
        simp only [List.length_cons] at hcap
        omega

/-- What the image loop does for its `i`-th entry: emplace the image info
`(null sampler, resolved view handle, general layout)` at the next `image_infos` index
and record a sampled-image descriptor write at the next sequential binding index carrying
that same image info. -/
theorem bindImages_entry (info : Shader.Info) (tc : TextureCache)
    (l : List Shader.ImageResource) (st : BindState) (i : Nat) (hi : i < l.length) :
    (bindImages info tc st l).image_infos[st.image_infos.length + i]? =
      some ⟨VK_NULL_HANDLE,
        tc.FindImageView (info.ReadUdImage (l.get ⟨i, hi⟩).sgpr_base
          (l.get ⟨i, hi⟩).dword_offset), .eGeneral⟩ ∧
    (bindImages info tc st l).trace[st.trace.length + i]? =
      some (.emplaceImageInfo (st.image_infos.length + i)) ∧
    (bindImages info tc st l).set_writes[st.set_writes.length + i]? =
      some { dstSet := VK_NULL_HANDLE,
             dstBinding := (st.binding + i) % U32_MOD,
             dstArrayElement := 0,
             descriptorCount := 1,
             descriptorType := .eSampledImage,
             pBufferInfo := none,
             pImageInfo := some ⟨VK_NULL_HANDLE,
               tc.FindImageView (info.ReadUdImage (l.get ⟨i, hi⟩).sgpr_base
                 (l.get ⟨i, hi⟩).dword_offset), .eGeneral⟩ } := by
  induction l generalizing st i with
  | nil => exact absurd hi (by simp)
  | cons e rest ih =>
      cases i with
      | zero =>
          refine ⟨?_, ?_, ?_⟩
          all_goals simp only [bindImages, List.get, Nat.add_zero]
          · apply bindImages_image_infos_getElem
            simp only [bindImage]
            exact List.getElem?_concat_length _ _
          · apply bindImages_trace_getElem
            simp only [bindImage]
            exact List.getElem?_concat_length _ _
          · apply bindImages_set_writes_getElem
            simp only [bindImage]
            exact List.getElem?_concat_length _ _
      | succ j =>
          have hj : j < rest.length := Nat.lt_of_succ_lt_succ hi
          obtain ⟨h1, h2, h3⟩ := ih (bindImage info tc st e) j hj
          have hii : (bindImage info tc st e).image_infos.length =
              st.image_infos.length + 1 := by simp [bindImage]
          have htr : (bindImage info tc st e).trace.length = st.trace.length + 1 := by
            simp [bindImage]
          have hsw : (bindImage info tc st e).set_writes.length =
              st.set_writes.length + 1 := by simp [bindImage]
          have hbd : (bindImage info tc st e).binding = st.binding + 1 := rfl
          rw [hii] at h1 h2
          rw [htr] at h2
          rw [hsw, hbd] at h3
          refine ⟨?_, ?_, ?_⟩
          all_goals simp only [bindImages, List.get]
          · have harith : st.image_infos.length + (j + 1) =
                st.image_infos.length + 1 + j := by omega
            rw [harith]
            exact h1
          · have harith : st.trace.length + (j + 1) = st.trace.length + 1 + j := by omega
            have harith2 : st.image_infos.length + (j + 1) =
                st.image_infos.length + 1 + j := by omega
            rw [harith, harith2]
            exact h2
          · have harith : st.set_writes.length + (j + 1) =
                st.set_writes.length + 1 + j := by omega
            have harith2 : st.binding + (j + 1) = st.binding + 1 + j := by omega
            rw [harith, harith2]
            exact h3

/-! General lemmas about the sampler loop of `BindResources`. -/

/-- The sampler loop advances the binding counter once per entry. -/
theorem bindSamplers_binding (info : Shader.Info) (tc : TextureCache)
    (l : List Shader.SamplerResource) (st : BindState) :
    (bindSamplers info tc st l).binding = st.binding + l.length := by
  induction l generalizing st with
  | nil => simp [bindSamplers]
  | cons x rest ih =>
      simp only [bindSamplers, List.length_cons]
      rw [ih]
      simp only [bindSampler]
      omega

/-- The sampler loop emplaces one image info per entry. -/
theorem bindSamplers_image_infos_length (info : Shader.Info) (tc : TextureCache)
    (l : List Shader.SamplerResource) (st : BindState) :
    (bindSamplers info tc st l).image_infos.length = st.image_infos.length + l.length := by
  induction l generalizing st with
  | nil => simp [bindSamplers]
  | cons x rest ih =>
      simp only [bindSamplers, List.length_cons]
      rw [ih]
      simp only [bindSampler, List.length_append, List.length_singleton]
      omega

/-- The sampler loop records one descriptor write per entry. -/
theorem bindSamplers_set_writes_length (info : Shader.Info) (tc : TextureCache)
    (l : List Shader.SamplerResource) (st : BindState) :
    (bindSamplers info tc st l).set_writes.length = st.set_writes.length + l.length := by
  induction l generalizing st with
  | nil => simp [bindSamplers]
  | cons x rest ih =>
      simp only [bindSamplers, List.length_cons]
      rw [ih]
      simp only [bindSampler, List.length_append, List.length_singleton]
      omega

/-- The sampler loop records one trace event per entry. -/
theorem bindSamplers_trace_length (info : Shader.Info) (tc : TextureCache)
    (l : List Shader.SamplerResource) (st : BindState) :
    (bindSamplers info tc st l).trace.length = st.trace.length + l.length := by
  induction l generalizing st with
  | nil => simp [bindSamplers]
  | cons x rest ih =>
      simp only [bindSamplers, List.length_cons]
      rw [ih]
      simp only [bindSampler, List.length_append, List.length_singleton]
      omega

/-- The sampler loop never touches `buffer_infos`. -/
theorem bindSamplers_buffer_infos (info : Shader.Info) (tc : TextureCache)
    (l : List Shader.SamplerResource) (st : BindState) :
    (bindSamplers info tc st l).buffer_infos = st.buffer_infos := by
  induction l generalizing st with
  | nil => rfl
  | cons x rest ih =>
      simp only [bindSamplers]
      rw [ih]
      rfl

/-- The sampler loop never touches the staging allocator. -/
theorem bindSamplers_staging (info : Shader.Info) (tc : TextureCache)
    (l : List Shader.SamplerResource) (st : BindState) :
    (bindSamplers info tc st l).staging = st.staging := by
  induction l generalizing st with
  | nil => rfl
  | cons x rest ih =>
      simp only [bindSamplers]
      rw [ih]
      rfl

/-- The sampler loop preserves image infos already recorded. -/
theorem bindSamplers_image_infos_getElem (info : Shader.Info) (tc : TextureCache)
    (l : List Shader.SamplerResource) (st : BindState) (i : Nat)
    (x : DescriptorImageInfo) (h : st.image_infos[i]? = some x) :
    (bindSamplers info tc st l).image_infos[i]? = some x := by
  induction l generalizing st with
  | nil => simpa [bindSamplers] using h
  | cons e rest ih =>
      have hi : i < st.image_infos.length := (List.getElem?_eq_some.mp h).1
      simp only [bindSamplers]
      exact ih _ (by simpa [bindSampler] using (List.getElem?_append_left hi).trans h)

/-- The sampler loop preserves descriptor writes already recorded. -/
theorem bindSamplers_set_writes_getElem (info : Shader.Info) (tc : TextureCache)
    (l : List Shader.SamplerResource) (st : BindState) (i : Nat)
    (x : WriteDescriptorSet) (h : st.set_writes[i]? = some x) :
    (bindSamplers info tc st l).set_writes[i]? = some x := by
  induction l generalizing st with
  | nil => simpa [bindSamplers] using h
  | cons e rest ih =>
      have hi : i < st.set_writes.length := (List.getElem?_eq_some.mp h).1
      simp only [bindSamplers]
      exact ih _ (by simpa [bindSampler] using (List.getElem?_append_left hi).trans h)

/-- The sampler loop preserves trace events already recorded. -/
theorem bindSamplers_trace_getElem (info : Shader.Info) (tc : TextureCache)
    (l : List Shader.SamplerResource) (st : BindState) (i : Nat) (x : Event)
    (h : st.trace[i]? = some x) : (bindSamplers info tc st l).trace[i]? = some x := by
  induction l generalizing st with
  | nil => simpa [bindSamplers] using h
  | cons e rest ih =>
      have hi : i < st.trace.length := (List.getElem?_eq_some.mp h).1
      simp only [bindSamplers]
      exact ih _ (by simpa [bindSampler] using (List.getElem?_append_left hi).trans h)

/-- The sampler loop pushes no descriptor batch. -/
theorem bindSamplers_filter_push (info : Shader.Info) (tc : TextureCache)
    (l : List Shader.SamplerResource) (st : BindState) :
    (bindSamplers info tc st l).trace.filter Event.isPush =
      st.trace.filter Event.isPush := by
  induction l generalizing st with
  | nil => rfl
  | cons e rest ih =>
      simp only [bindSamplers]
      rw [ih]
      simp [bindSampler, List.filter_append, Event.isPush]

/-- If at most 8 entries remain to be emplaced into `image_infos`, every emplace of the
sampler loop stays within the array's capacity. -/
theorem bindSamplers_all_bounds (info : Shader.Info) (tc : TextureCache)
    (l : List Shader.SamplerResource) (st : BindState)
    (h : st.trace.all eventInBounds = true)
    (hcap : st.image_infos.length + l.length ≤ 8) :
    (bindSamplers info tc st l).trace.all eventInBounds = true := by
  induction l generalizing st with
  | nil => simpa [bindSamplers] using h
  | cons e rest ih =>
      simp only [bindSamplers]
      apply ih
      · simp only [bindSampler, List.all_append, h, Bool.true_and, List.all_cons,
          List.all_nil, eventInBounds, Bool.and_true]
        simp only [List.length_cons] at hcap
        simp only [decide_eq_true_eq]
        omega
      · simp only [bindSampler, List.length_append, List.length_singleton]
        simp only [List.length_cons] at hcap
        omega

/-- What the sampler loop does for its `i`-th entry: emplace the image info
`(resolved sampler handle, null view, general layout)` at the next `image_infos` index
and record a sampler descriptor write at the next sequential binding index carrying that
same image info. -/
theorem bindSamplers_entry (info : Shader.Info) (tc : TextureCache)
    (l : List Shader.SamplerResource) (st : BindState) (i : Nat) (hi : i < l.length) :
    (bindSamplers info tc st l).image_infos[st.image_infos.length + i]? =
      some ⟨tc.GetSampler (info.ReadUdSampler (l.get ⟨i, hi⟩).sgpr_base
        (l.get ⟨i, hi⟩).dword_offset), VK_NULL_HANDLE, .eGeneral⟩ ∧
    (bindSamplers info tc st l).trace[st.trace.length + i]? =
      some (.emplaceImageInfo (st.image_infos.length + i)) ∧
    (bindSamplers info tc st l).set_writes[st.set_writes.length + i]? =
      some { dstSet := VK_NULL_HANDLE,
             dstBinding := (st.binding + i) % U32_MOD,
             dstArrayElement := 0,
             descriptorCount := 1,
             descriptorType := .eSampler,
             pBufferInfo := none,
             pImageInfo := some ⟨tc.GetSampler
               (info.ReadUdSampler (l.get ⟨i, hi⟩).sgpr_base
                 (l.get ⟨i, hi⟩).dword_offset), VK_NULL_HANDLE, .eGeneral⟩ } := by
  induction l generalizing st i with
  | nil => exact absurd hi (by simp)
  | cons e rest ih =>
      cases i with
      | zero =>
          refine ⟨?_, ?_, ?_⟩
          all_goals simp only [bindSamplers, List.get, Nat.add_zero]
          · apply bindSamplers_image_infos_getElem
            simp only [bindSampler]
            exact List.getElem?_concat_length _ _
          · apply bindSamplers_trace_getElem
            simp only [bindSampler]
            exact List.getElem?_concat_length _ _
          · apply bindSamplers_set_writes_getElem
            simp only [bindSampler]
            exact List.getElem?_concat_length _ _
      | succ j =>
          have hj : j < rest.length := Nat.lt_of_succ_lt_succ hi
          obtain ⟨h1, h2, h3⟩ := ih (bindSampler info tc st e) j hj
          have hii : (bindSampler info tc st e).image_infos.length =
              st.image_infos.length + 1 := by simp [bindSampler]
          have htr : (bindSampler info tc st e).trace.length = st.trace.length + 1 := by
            simp [bindSampler]
          have hsw : (bindSampler info tc st e).set_writes.length =
              st.set_writes.length + 1 := by simp [bindSampler]
          have hbd : (bindSampler info tc st e).binding = st.binding + 1 := rfl
          rw [hii] at h1 h2
          rw [htr] at h2
          rw [hsw, hbd] at h3
          refine ⟨?_, ?_, ?_⟩
          all_goals simp only [bindSamplers, List.get]
          · have harith : st.image_infos.length + (j + 1) =
                st.image_infos.length + 1 + j := by omega
            rw [harith]
            exact h1
          · have harith : st.trace.length + (j + 1) = st.trace.length + 1 + j := by omega
            have harith2 : st.image_infos.length + (j + 1) =
                st.image_infos.length + 1 + j := by omega
            rw [harith, harith2]
            exact h2
          · have harith : st.set_writes.length + (j + 1) =
                st.set_writes.length + 1 + j := by omega
            have harith2 : st.binding + (j + 1) = st.binding + 1 + j := by omega
            rw [harith, harith2]
            exact h3

/-! Lemmas about the composed loop state and `BindResources` itself. -/

/-- `BindResources` is the loop state followed by the conditional push. -/
theorem BindResources_eq (p : ComputePipeline) (memory : Core.MemoryManager)
    (staging : StreamBuffer) (tc : TextureCache) :
    p.BindResources memory staging tc =
      (if (p.bindLoopState staging tc).set_writes.isEmpty then p.bindLoopState staging tc
       else { p.bindLoopState staging tc with
              trace := (p.bindLoopState staging tc).trace ++
                [.pushDescriptorSetKHR .eCompute p.pipeline_layout 0
                  (p.bindLoopState staging tc).set_writes] }) := rfl

/-- The conditional push leaves `set_writes` unchanged. -/
theorem BindResources_set_writes (p : ComputePipeline) (memory : Core.MemoryManager)
    (staging : StreamBuffer) (tc : TextureCache) :
    (p.BindResources memory staging tc).set_writes =
      (p.bindLoopState staging tc).set_writes := by
  rw [BindResources_eq]
  split <;> rfl

/-- The conditional push leaves `buffer_infos` unchanged. -/
theorem BindResources_buffer_infos (p : ComputePipeline) (memory : Core.MemoryManager)
    (staging : StreamBuffer) (tc : TextureCache) :
    (p.BindResources memory staging tc).buffer_infos =
      (p.bindLoopState staging tc).buffer_infos := by
  rw [BindResources_eq]
  split <;> rfl

/-- The conditional push leaves `image_infos` unchanged. -/
theorem BindResources_image_infos (p : ComputePipeline) (memory : Core.MemoryManager)
    (staging : StreamBuffer) (tc : TextureCache) :
    (p.BindResources memory staging tc).image_infos =
      (p.bindLoopState staging tc).image_infos := by
  rw [BindResources_eq]
  split <;> rfl

/-- Trace events recorded by the loops survive the conditional push. -/
theorem BindResources_trace_getElem (p : ComputePipeline) (memory : Core.MemoryManager)
    (staging : StreamBuffer) (tc : TextureCache) (i : Nat) (x : Event)
    (h : (p.bindLoopState staging tc).trace[i]? = some x) :
    (p.BindResources memory staging tc).trace[i]? = some x := by
  rw [BindResources_eq]
  split
  · exact h
  · have hi : i < (p.bindLoopState staging tc).trace.length :=
      (List.getElem?_eq_some.mp h).1
    exact (List.getElem?_append_left hi).trans h

/-- The loops record one descriptor write per resource entry, in total. -/
theorem bindLoopState_set_writes_length (p : ComputePipeline) (staging : StreamBuffer)
    (tc : TextureCache) :
    (p.bindLoopState staging tc).set_writes.length =
      p.info.buffers.length + p.info.images.length + p.info.samplers.length := by
  simp only [ComputePipeline.bindLoopState]
  rw [bindSamplers_set_writes_length, bindImages_set_writes_length,
    bindBuffers_set_writes_length]
  simp [Nat.add_assoc]

/-- The loops record one buffer info per buffer entry. -/
theorem bindLoopState_buffer_infos_length (p : ComputePipeline) (staging : StreamBuffer)
    (tc : TextureCache) :
    (p.bindLoopState staging tc).buffer_infos.length = p.info.buffers.length := by
  simp only [ComputePipeline.bindLoopState]
  rw [bindSamplers_buffer_infos, bindImages_buffer_infos, bindBuffers_buffer_infos_length]
  simp

/-- The loops record one image info per image or sampler entry. -/
theorem bindLoopState_image_infos_length (p : ComputePipeline) (staging : StreamBuffer)
    (tc : TextureCache) :
    (p.bindLoopState staging tc).image_infos.length =
      p.info.images.length + p.info.samplers.length := by
  simp only [ComputePipeline.bindLoopState]
  rw [bindSamplers_image_infos_length, bindImages_image_infos_length,
    bindBuffers_image_infos]
  simp [Nat.add_assoc]

/-- The loops never change the staging allocator's backing buffer handle. -/
theorem bindLoopState_staging_handle (p : ComputePipeline) (staging : StreamBuffer)
    (tc : TextureCache) :
    (p.bindLoopState staging tc).staging.handle = staging.handle := by
  simp only [ComputePipeline.bindLoopState]
  rw [bindSamplers_staging, bindImages_staging, bindBuffers_staging_handle]

/-- The loops themselves never push a descriptor batch. -/
theorem bindLoopState_filter_push (p : ComputePipeline) (staging : StreamBuffer)
    (tc : TextureCache) :
    (p.bindLoopState staging tc).trace.filter Event.isPush = [] := by
  simp only [ComputePipeline.bindLoopState]
  rw [bindSamplers_filter_push, bindImages_filter_push, bindBuffers_filter_push]
  rfl

/-- The loop-state facts for the `i`-th buffer entry, with all indices counted from the
start of the dispatch. -/
theorem bindLoopState_buffer_entry (p : ComputePipeline) (staging : StreamBuffer)
    (tc : TextureCache) (i : Nat) (hi : i < p.info.buffers.length) :
    ∃ offset, offset % MinUniformAlignment = 0 ∧
      (p.bindLoopState staging tc).trace[3 * i]? =
        some (.onCpuWrite (p.info.ReadUdBuffer (p.info.buffers.get ⟨i, hi⟩).sgpr_base
          (p.info.buffers.get ⟨i, hi⟩).dword_offset).base_address) ∧
      (p.bindLoopState staging tc).trace[3 * i + 1]? =
        some (.stagingCopy
          (p.info.ReadUdBuffer (p.info.buffers.get ⟨i, hi⟩).sgpr_base
            (p.info.buffers.get ⟨i, hi⟩).dword_offset).base_address
          (p.info.ReadUdBuffer (p.info.buffers.get ⟨i, hi⟩).sgpr_base
            (p.info.buffers.get ⟨i, hi⟩).dword_offset).GetSize offset) ∧
      (p.bindLoopState staging tc).trace[3 * i + 2]? =
        some (.emplaceBufferInfo i) ∧
      (p.bindLoopState staging tc).buffer_infos[i]? =
        some ⟨staging.handle, offset,
          (p.info.ReadUdBuffer (p.info.buffers.get ⟨i, hi⟩).sgpr_base
            (p.info.buffers.get ⟨i, hi⟩).dword_offset).GetSize⟩ ∧
      (p.bindLoopState staging tc).set_writes[i]? =
        some { dstSet := VK_NULL_HANDLE,
               dstBinding := i % U32_MOD,
               dstArrayElement := 0,
               descriptorCount := 1,
               descriptorType := if (p.info.buffers.get ⟨i, hi⟩).is_storage
                                 then .eStorageBuffer else .eUniformBuffer,
               pBufferInfo := some ⟨staging.handle, offset,
                 (p.info.ReadUdBuffer (p.info.buffers.get ⟨i, hi⟩).sgpr_base
                   (p.info.buffers.get ⟨i, hi⟩).dword_offset).GetSize⟩,
               pImageInfo := none } := by
  obtain ⟨offset, hmod, h1, h2, h3, h4, h5⟩ := bindBuffers_entry p.info p.info.buffers
    { staging := staging, buffer_infos := [], image_infos := [], set_writes := [],
      binding := 0, trace := [] } i hi
  simp only [List.length_nil, Nat.zero_add] at h1 h2 h3 h4 h5
  refine ⟨offset, hmod, ?_, ?_, ?_, ?_, ?_⟩
  all_goals simp only [ComputePipeline.bindLoopState]
  · exact bindSamplers_trace_getElem _ _ _ _ _ _
      (bindImages_trace_getElem _ _ _ _ _ _ h1)
  · exact bindSamplers_trace_getElem _ _ _ _ _ _
      (bindImages_trace_getElem _ _ _ _ _ _ h2)
  · exact bindSamplers_trace_getElem _ _ _ _ _ _
      (bindImages_trace_getElem _ _ _ _ _ _ h3)
  · rw [bindSamplers_buffer_infos, bindImages_buffer_infos]
    exact h4
  · exact bindSamplers_set_writes_getElem _ _ _ _ _ _
      (bindImages_set_writes_getElem _ _ _ _ _ _ h5)

/-- The loop-state facts for the `i`-th image entry, with all indices counted from the
start of the dispatch. -/
theorem bindLoopState_image_entry (p : ComputePipeline) (staging : StreamBuffer)
    (tc : TextureCache) (i : Nat) (hi : i < p.info.images.length) :
    (p.bindLoopState staging tc).image_infos[i]? =
      some ⟨VK_NULL_HANDLE,
        tc.FindImageView (p.info.ReadUdImage (p.info.images.get ⟨i, hi⟩).sgpr_base
          (p.info.images.get ⟨i, hi⟩).dword_offset), .eGeneral⟩ ∧
    (p.bindLoopState staging tc).trace[3 * p.info.buffers.length + i]? =
      some (.emplaceImageInfo i) ∧
    (p.bindLoopState staging tc).set_writes[p.info.buffers.length + i]? =
      some { dstSet := VK_NULL_HANDLE,
             dstBinding := (p.info.buffers.length + i) % U32_MOD,
             dstArrayElement := 0,
             descriptorCount := 1,
             descriptorType := .eSampledImage,
             pBufferInfo := none,
             pImageInfo := some ⟨VK_NULL_HANDLE,
               tc.FindImageView (p.info.ReadUdImage (p.info.images.get ⟨i, hi⟩).sgpr_base
                 (p.info.images.get ⟨i, hi⟩).dword_offset), .eGeneral⟩ } := by
  obtain ⟨h1, h2, h3⟩ := bindImages_entry p.info tc p.info.images
    (bindBuffers p.info
      { staging := staging, buffer_infos := [], image_infos := [], set_writes := [],
        binding := 0, trace := [] } p.info.buffers) i hi
  rw [bindBuffers_image_infos] at h1 h2
  rw [bindBuffers_trace_length] at h2
  rw [bindBuffers_set_writes_length, bindBuffers_binding] at h3
  simp only [List.length_nil, Nat.zero_add] at h1 h2 h3
  refine ⟨?_, ?_, ?_⟩
  all_goals simp only [ComputePipeline.bindLoopState]
  · exact bindSamplers_image_infos_getElem _ _ _ _ _ _ h1
  · exact bindSamplers_trace_getElem _ _ _ _ _ _ h2
  · exact bindSamplers_set_writes_getElem _ _ _ _ _ _ h3

/-- The loop-state facts for the `j`-th sampler entry, with all indices counted from the
start of the dispatch. -/
theorem bindLoopState_sampler_entry (p : ComputePipeline) (staging : StreamBuffer)
    (tc : TextureCache) (j : Nat) (hj : j < p.info.samplers.length) :
    (p.bindLoopState staging tc).image_infos[p.info.images.length + j]? =
      some ⟨tc.GetSampler (p.info.ReadUdSampler (p.info.samplers.get ⟨j, hj⟩).sgpr_base
        (p.info.samplers.get ⟨j, hj⟩).dword_offset), VK_NULL_HANDLE, .eGeneral⟩ ∧
    (p.bindLoopState staging tc).trace[3 * p.info.buffers.length +
        p.info.images.length + j]? =
      some (.emplaceImageInfo (p.info.images.length + j)) ∧
    (p.bindLoopState staging tc).set_writes[p.info.buffers.length +
        p.info.images.length + j]? =
      some { dstSet := VK_NULL_HANDLE,
             dstBinding := (p.info.buffers.length + p.info.images.length + j) % U32_MOD,
             dstArrayElement := 0,
             descriptorCount := 1,
             descriptorType := .eSampler,
             pBufferInfo := none,
             pImageInfo := some ⟨tc.GetSampler
               (p.info.ReadUdSampler (p.info.samplers.get ⟨j, hj⟩).sgpr_base
                 (p.info.samplers.get ⟨j, hj⟩).dword_offset),
               VK_NULL_HANDLE, .eGeneral⟩ } := by
  obtain ⟨h1, h2, h3⟩ := bindSamplers_entry p.info tc p.info.samplers
    (bindImages p.info tc
      (bindBuffers p.info
        { staging := staging, buffer_infos := [], image_infos := [], set_writes := [],
          binding := 0, trace := [] } p.info.buffers) p.info.images) j hj
  rw [bindImages_image_infos_length, bindBuffers_image_infos] at h1 h2
  rw [bindImages_trace_length, bindBuffers_trace_length] at h2
  rw [bindImages_set_writes_length, bindBuffers_set_writes_length,
    bindImages_binding, bindBuffers_binding] at h3
  simp only [List.length_nil, Nat.zero_add] at h1 h2 h3
  exact ⟨h1, h2, h3⟩

/-! The verified claims. -/

/-- Claim C1: for every resource layout, the binding index the constructor (Layout
Builder) assigns to each entry equals the index `BindResources` (Resource Binder) assigns
to the same entry: both produce one entry per resource and number them sequentially from
zero in the order buffers, then images, then samplers, each list in declared order. -/
theorem layout_binder_binding_indices_agree (p : ComputePipeline)
    (memory : Core.MemoryManager) (staging : StreamBuffer) (tc : TextureCache) (i : Nat)
    (hi : i < (buildBindings p.info).length) :
    (buildBindings p.info).length =
      (p.BindResources memory staging tc).set_writes.length ∧
    ∃ b w, (buildBindings p.info)[i]? = some b ∧
      (p.BindResources memory staging tc).set_writes[i]? = some w ∧
      b.binding = i % U32_MOD ∧ w.dstBinding = i % U32_MOD := by
  have hlen1 := buildBindings_length p.info
  have hlen2 : (p.BindResources memory staging tc).set_writes.length =
      p.info.buffers.length + p.info.images.length + p.info.samplers.length := by
    rw [BindResources_set_writes, bindLoopState_set_writes_length]
  refine ⟨by rw [hlen1, hlen2], ?_⟩
  rw [hlen1] at hi
  rcases Nat.lt_or_ge i p.info.buffers.length with h1 | h1
  · have hb := buildBindings_buffer_entry p.info i h1
    obtain ⟨offset, _, _, _, _, _, h5⟩ := bindLoopState_buffer_entry p staging tc i h1
    exact ⟨_, _, hb, by rw [BindResources_set_writes]; exact h5,
      by simp [bufBindingOf], rfl⟩
  · rcases Nat.lt_or_ge i (p.info.buffers.length + p.info.images.length) with h2 | h2
    · have hi' : i - p.info.buffers.length < p.info.images.length := by omega
      have heq : p.info.buffers.length + (i - p.info.buffers.length) = i := by omega
      have hb := buildBindings_image_entry p.info (i - p.info.buffers.length) hi'
      rw [heq] at hb
      obtain ⟨_, _, h3⟩ :=
        bindLoopState_image_entry p staging tc (i - p.info.buffers.length) hi'
      rw [heq] at h3
      exact ⟨_, _, hb, by rw [BindResources_set_writes]; exact h3,
        by simp [imgBindingOf], rfl⟩
    · have hj : i - p.info.buffers.length - p.info.images.length <
          p.info.samplers.length := by omega
      have heq : p.info.buffers.length + p.info.images.length +
          (i - p.info.buffers.length - p.info.images.length) = i := by omega
      have hb := buildBindings_sampler_entry p.info
        (i - p.info.buffers.length - p.info.images.length) hj
      rw [heq] at hb
      obtain ⟨_, _, h3⟩ := bindLoopState_sampler_entry p staging tc
        (i - p.info.buffers.length - p.info.images.length) hj
      rw [heq] at h3
      exact ⟨_, _, hb, by rw [BindResources_set_writes]; exact h3,
        by simp [sampBindingOf], rfl⟩

/-- Claim C2: `BindResources` pushes exactly when the layout produced at least one
binding: the recorded writes are empty exactly when all three resource lists are empty,
in which case no push event appears in the trace; otherwise the trace holds exactly one
`pushDescriptorSetKHR` event, carrying the complete write set, the compute bind point,
the pipeline object's layout and set index 0. -/
theorem bindResources_push_iff_bindings (p : ComputePipeline)
    (memory : Core.MemoryManager) (staging : StreamBuffer) (tc : TextureCache) :
    ((p.BindResources memory staging tc).set_writes.isEmpty = true ↔
      p.info.buffers = [] ∧ p.info.images = [] ∧ p.info.samplers = []) ∧
    (p.BindResources memory staging tc).trace.filter Event.isPush =
      (if (p.BindResources memory staging tc).set_writes.isEmpty then ([] : List Event)
       else [.pushDescriptorSetKHR .eCompute p.pipeline_layout 0
         (p.BindResources memory staging tc).set_writes]) := by
  constructor
  · rw [BindResources_set_writes, List.isEmpty_iff]
    constructor
    · intro hnil
      have h0 : (p.bindLoopState staging tc).set_writes.length = 0 := by
        rw [hnil]; rfl
      rw [bindLoopState_set_writes_length] at h0
      exact ⟨List.length_eq_zero.mp (by omega), List.length_eq_zero.mp (by omega),
        List.length_eq_zero.mp (by omega)⟩
    · rintro ⟨hb, hm, hs⟩
      apply List.length_eq_zero.mp
      rw [bindLoopState_set_writes_length, hb, hm, hs]
      rfl
  · rw [BindResources_eq]
    by_cases h : (p.bindLoopState staging tc).set_writes.isEmpty = true
    · simp only [h, if_true]
      rw [bindLoopState_filter_push]
    · simp only [h, if_false, Bool.false_eq_true]
      rw [List.filter_append, bindLoopState_filter_push]
      simp [Event.isPush]

/-- Claim C3: for every buffer entry, `BindResources` stages a region whose size is
exactly the byte size decoded from the entry's hardware descriptor, at a staging offset
that is a multiple of 64 (the minimum uniform alignment passed to the allocator), and the
recorded buffer binding is exactly the triple (staging buffer handle, that offset, that
size). -/
theorem buffer_staging_size_and_alignment (p : ComputePipeline)
    (memory : Core.MemoryManager) (staging : StreamBuffer) (tc : TextureCache) (i : Nat)
    (hi : i < p.info.buffers.length) :
    ∃ offset, offset % MinUniformAlignment = 0 ∧
      Event.stagingCopy
        (p.info.ReadUdBuffer (p.info.buffers.get ⟨i, hi⟩).sgpr_base
          (p.info.buffers.get ⟨i, hi⟩).dword_offset).base_address
        (p.info.ReadUdBuffer (p.info.buffers.get ⟨i, hi⟩).sgpr_base
          (p.info.buffers.get ⟨i, hi⟩).dword_offset).GetSize offset ∈
        (p.BindResources memory staging tc).trace ∧
      (p.BindResources memory staging tc).buffer_infos[i]? =
        some ⟨staging.handle, offset,
          (p.info.ReadUdBuffer (p.info.buffers.get ⟨i, hi⟩).sgpr_base
            (p.info.buffers.get ⟨i, hi⟩).dword_offset).GetSize⟩ ∧
      ∃ w, (p.BindResources memory staging tc).set_writes[i]? = some w ∧
        w.pBufferInfo = some ⟨staging.handle, offset,
          (p.info.ReadUdBuffer (p.info.buffers.get ⟨i, hi⟩).sgpr_base
            (p.info.buffers.get ⟨i, hi⟩).dword_offset).GetSize⟩ := by
  obtain ⟨offset, hmod, h1, h2, h3, h4, h5⟩ := bindLoopState_buffer_entry p staging tc i hi
  refine ⟨offset, hmod, ?_, ?_, ?_⟩
  · exact List.getElem?_mem (BindResources_trace_getElem p memory staging tc _ _ h2)
  · rw [BindResources_buffer_infos]
    exact h4
  · exact ⟨_, by rw [BindResources_set_writes]; exact h5, rfl⟩

/-- Claim C4: for every buffer entry, both the constructor and `BindResources` derive the
descriptor type from the entry's `is_storage` flag in the same way (storage buffer when
set, uniform buffer otherwise), so the type recorded at dispatch time equals the type
declared in the set layout for that binding. -/
theorem buffer_descriptor_types_agree (p : ComputePipeline)
    (memory : Core.MemoryManager) (staging : StreamBuffer) (tc : TextureCache) (i : Nat)
    (hi : i < p.info.buffers.length) :
    ∃ b w, (buildBindings p.info)[i]? = some b ∧
      (p.BindResources memory staging tc).set_writes[i]? = some w ∧
      b.descriptorType = (if (p.info.buffers.get ⟨i, hi⟩).is_storage
                          then DescriptorType.eStorageBuffer
                          else DescriptorType.eUniformBuffer) ∧
      w.descriptorType = b.descriptorType := by
  have hb := buildBindings_buffer_entry p.info i hi
  obtain ⟨offset, _, _, _, _, _, h5⟩ := bindLoopState_buffer_entry p staging tc i hi
  exact ⟨_, _, hb, by rw [BindResources_set_writes]; exact h5,
    by simp [bufBindingOf], by simp [bufBindingOf]⟩

/-- Claim C5: for every resource layout, the constructor creates a pipeline layout that
references exactly the one descriptor-set layout it built and declares zero push-constant
ranges, creates the set layout with the push-descriptor capability flag, and declares
every binding compute-stage-only with descriptor count 1. -/
theorem layout_builder_single_set_no_push_constants (inst : Instance)
    (info : Shader.Info) :
    (desc_layout_ci info).flags = DescriptorSetLayoutCreateFlags.ePushDescriptorKHR ∧
    (desc_layout_ci info).pBindings = buildBindings info ∧
    (layout_info inst info).setLayoutCount = 1 ∧
    (layout_info inst info).pSetLayouts =
      [inst.createDescriptorSetLayout (desc_layout_ci info)] ∧
    (layout_info inst info).pushConstantRangeCount = 0 ∧
    (layout_info inst info).pPushConstantRanges = [] ∧
    ∀ b ∈ buildBindings info,
      b.stageFlags = ShaderStageFlags.eCompute ∧ b.descriptorCount = 1 :=
  ⟨rfl, rfl, rfl, rfl, rfl, rfl, buildBindings_stage_count info⟩

/-- Claim C6: for every buffer entry, the texture-cache write notification (`OnCpuWrite`
with the decoded base address) is recorded strictly before the copy of that buffer's
contents into the staging region: the two events sit at consecutive trace positions. -/
theorem onCpuWrite_precedes_staging_copy (p : ComputePipeline)
    (memory : Core.MemoryManager) (staging : StreamBuffer) (tc : TextureCache) (i : Nat)
    (hi : i < p.info.buffers.length) :
    ∃ j offset,
      (p.BindResources memory staging tc).trace[j]? =
        some (.onCpuWrite (p.info.ReadUdBuffer (p.info.buffers.get ⟨i, hi⟩).sgpr_base
          (p.info.buffers.get ⟨i, hi⟩).dword_offset).base_address) ∧
      (p.BindResources memory staging tc).trace[j + 1]? =
        some (.stagingCopy
          (p.info.ReadUdBuffer (p.info.buffers.get ⟨i, hi⟩).sgpr_base
            (p.info.buffers.get ⟨i, hi⟩).dword_offset).base_address
          (p.info.ReadUdBuffer (p.info.buffers.get ⟨i, hi⟩).sgpr_base
            (p.info.buffers.get ⟨i, hi⟩).dword_offset).GetSize offset) := by
  obtain ⟨offset, _, h1, h2, _, _, _⟩ := bindLoopState_buffer_entry p staging tc i hi
  exact ⟨3 * i, offset, BindResources_trace_getElem p memory staging tc _ _ h1,
    BindResources_trace_getElem p memory staging tc _ _ h2⟩

/-- Claim C7 (documenting the defect): when compute-pipeline creation returns a
non-success host result, the constructor does not return an error result — it hits
`UNREACHABLE_MSG` and aborts the process, evaluated here on a concrete failing device. -/
theorem construct_aborts_on_failed_creation :
    ComputePipeline.construct failInstance 0 infoEx 0 =
      ConstructOutcome.aborted "Graphics pipeline creation failed!" := rfl

/-- Claim C8: for every image and sampler entry, the handle recorded in the pushed
binding at that entry's index is exactly the handle the texture cache resolved for the
entry's decoded descriptor — an image view with general layout and null sampler for
images, a sampler with null view for samplers — and the matching image info is recorded
at the entry's `image_infos` index. -/
theorem image_sampler_handles_resolved (p : ComputePipeline)
    (memory : Core.MemoryManager) (staging : StreamBuffer) (tc : TextureCache) :
    (∀ i (hi : i < p.info.images.length),
      ∃ w, (p.BindResources memory staging tc).set_writes[p.info.buffers.length + i]? =
          some w ∧
        w.pImageInfo = some ⟨VK_NULL_HANDLE,
          tc.FindImageView (p.info.ReadUdImage (p.info.images.get ⟨i, hi⟩).sgpr_base
            (p.info.images.get ⟨i, hi⟩).dword_offset), ImageLayout.eGeneral⟩ ∧
        (p.BindResources memory staging tc).image_infos[i]? =
          some ⟨VK_NULL_HANDLE,
            tc.FindImageView (p.info.ReadUdImage (p.info.images.get ⟨i, hi⟩).sgpr_base
              (p.info.images.get ⟨i, hi⟩).dword_offset), ImageLayout.eGeneral⟩) ∧
    (∀ j (hj : j < p.info.samplers.length),
      ∃ w, (p.BindResources memory staging tc).set_writes[p.info.buffers.length +
          p.info.images.length + j]? = some w ∧
        w.pImageInfo = some ⟨tc.GetSampler
          (p.info.ReadUdSampler (p.info.samplers.get ⟨j, hj⟩).sgpr_base
            (p.info.samplers.get ⟨j, hj⟩).dword_offset),
          VK_NULL_HANDLE, ImageLayout.eGeneral⟩ ∧
        (p.BindResources memory staging tc).image_infos[p.info.images.length + j]? =
          some ⟨tc.GetSampler
            (p.info.ReadUdSampler (p.info.samplers.get ⟨j, hj⟩).sgpr_base
              (p.info.samplers.get ⟨j, hj⟩).dword_offset),
            VK_NULL_HANDLE, ImageLayout.eGeneral⟩) := by
  constructor
  · intro i hi
    obtain ⟨h1, _, h3⟩ := bindLoopState_image_entry p staging tc i hi
    exact ⟨_, by rw [BindResources_set_writes]; exact h3, rfl,
      by rw [BindResources_image_infos]; exact h1⟩
  · intro j hj
    obtain ⟨h1, _, h3⟩ := bindLoopState_sampler_entry p staging tc j hj
    exact ⟨_, by rw [BindResources_set_writes]; exact h3, rfl,
      by rw [BindResources_image_infos]; exact h1⟩

/-- Claim C9: `BindResources` never modifies the pipeline object: after a
`BindResources` step on the renderer state, the descriptor-set layout, pipeline layout,
compiled pipeline and shader info — the whole pipeline object — are unchanged. -/
theorem bindResources_preserves_pipeline_object (w : World) :
    w.BindResourcesStep.pipelineObj.desc_layout = w.pipelineObj.desc_layout ∧
    w.BindResourcesStep.pipelineObj.pipeline_layout = w.pipelineObj.pipeline_layout ∧
    w.BindResourcesStep.pipelineObj.pipeline = w.pipelineObj.pipeline ∧
    w.BindResourcesStep.pipelineObj.info = w.pipelineObj.info ∧
    w.BindResourcesStep.pipelineObj = w.pipelineObj :=
  ⟨rfl, rfl, rfl, rfl, rfl⟩

/-- Claim C10: every emplace into the two fixed-capacity local arrays of `BindResources`
(4 buffer-info slots; 8 image-info slots shared by images and samplers) stays in bounds
if and only if the layout has at most 4 buffer entries and at most 8 image plus sampler
entries combined. -/
theorem bindResources_capacity_iff (p : ComputePipeline) (memory : Core.MemoryManager)
    (staging : StreamBuffer) (tc : TextureCache) :
    (p.BindResources memory staging tc).trace.all eventInBounds = true ↔
      (p.info.buffers.length ≤ 4 ∧
       p.info.images.length + p.info.samplers.length ≤ 8) := by
  constructor
  · intro h
    constructor
    · by_contra h4
      have h4' : 4 < p.info.buffers.length := by omega
      obtain ⟨offset, _, _, _, h3, _, _⟩ :=
        bindLoopState_buffer_entry p staging tc 4 h4'
      have hmem := List.getElem?_mem (BindResources_trace_getElem p memory staging tc _ _ h3)
      have hb := List.all_eq_true.mp h _ hmem
      simp [eventInBounds] at hb
    · by_contra h8
      have h8' : 8 < p.info.images.length + p.info.samplers.length := by omega
      rcases Nat.lt_or_ge 8 p.info.images.length with hc | hc
      · obtain ⟨_, h2, _⟩ := bindLoopState_image_entry p staging tc 8 hc
        have hmem :=
          List.getElem?_mem (BindResources_trace_getElem p memory staging tc _ _ h2)
        have hb := List.all_eq_true.mp h _ hmem
        simp [eventInBounds] at hb
      · have hj : 8 - p.info.images.length < p.info.samplers.length := by omega
        have heq : p.info.images.length + (8 - p.info.images.length) = 8 := by omega
        obtain ⟨_, h2, _⟩ :=
          bindLoopState_sampler_entry p staging tc (8 - p.info.images.length) hj
        rw [heq] at h2
        have hmem :=
          List.getElem?_mem (BindResources_trace_getElem p memory staging tc _ _ h2)
        have hb := List.all_eq_true.mp h _ hmem
        simp [eventInBounds] at hb
  · rintro ⟨h4, h8⟩
    have hall : (p.bindLoopState staging tc).trace.all eventInBounds = true := by
      simp only [ComputePipeline.bindLoopState]
      apply bindSamplers_all_bounds
      · apply bindImages_all_bounds
        · apply bindBuffers_all_bounds
          · rfl
          · simpa using h4
        · rw [bindBuffers_image_infos]
          simpa using (by omega : p.info.images.length ≤ 8)
      · rw [bindImages_image_infos_length, bindBuffers_image_infos]
        simp only [List.length_nil, Nat.zero_add]
        omega
    rw [BindResources_eq]
    split
    · exact hall
    · rw [List.all_append]
      simp [hall, eventInBounds]

/-! Closed witnesses evaluating the claims on the concrete fixtures. -/

/-- Witness: claim C1 evaluated at the fixture pipeline, entry 0. -/
theorem layout_binder_binding_indices_agree_witness :
    0 < (buildBindings pipelineEx.info).length ∧
    ((buildBindings pipelineEx.info).length =
        (pipelineEx.BindResources memEx stagingEx tcEx).set_writes.length ∧
      ∃ b w, (buildBindings pipelineEx.info)[0]? = some b ∧
        (pipelineEx.BindResources memEx stagingEx tcEx).set_writes[0]? = some w ∧
        b.binding = 0 % U32_MOD ∧ w.dstBinding = 0 % U32_MOD) :=
  ⟨by decide,
   layout_binder_binding_indices_agree pipelineEx memEx stagingEx tcEx 0 (by decide)⟩

/-- Witness: claim C3 evaluated at the fixture pipeline, buffer entry 0. -/
theorem buffer_staging_size_and_alignment_witness :
    0 < pipelineEx.info.buffers.length ∧
    ∃ offset, offset % MinUniformAlignment = 0 ∧
      Event.stagingCopy
        (pipelineEx.info.ReadUdBuffer
          (pipelineEx.info.buffers.get ⟨0, by decide⟩).sgpr_base
          (pipelineEx.info.buffers.get ⟨0, by decide⟩).dword_offset).base_address
        (pipelineEx.info.ReadUdBuffer
          (pipelineEx.info.buffers.get ⟨0, by decide⟩).sgpr_base
          (pipelineEx.info.buffers.get ⟨0, by decide⟩).dword_offset).GetSize offset ∈
        (pipelineEx.BindResources memEx stagingEx tcEx).trace ∧
      (pipelineEx.BindResources memEx stagingEx tcEx).buffer_infos[0]? =
        some ⟨stagingEx.handle, offset,
          (pipelineEx.info.ReadUdBuffer
            (pipelineEx.info.buffers.get ⟨0, by decide⟩).sgpr_base
            (pipelineEx.info.buffers.get ⟨0, by decide⟩).dword_offset).GetSize⟩ ∧
      ∃ w, (pipelineEx.BindResources memEx stagingEx tcEx).set_writes[0]? = some w ∧
        w.pBufferInfo = some ⟨stagingEx.handle, offset,
          (pipelineEx.info.ReadUdBuffer
            (pipelineEx.info.buffers.get ⟨0, by decide⟩).sgpr_base
            (pipelineEx.info.buffers.get ⟨0, by decide⟩).dword_offset).GetSize⟩ :=
  ⟨by decide,
   buffer_staging_size_and_alignment pipelineEx memEx stagingEx tcEx 0 (by decide)⟩

/-- Witness: claim C4 evaluated at the fixture pipeline, buffer entry 0. -/
theorem buffer_descriptor_types_agree_witness :
    0 < pipelineEx.info.buffers.length ∧
    ∃ b w, (buildBindings pipelineEx.info)[0]? = some b ∧
      (pipelineEx.BindResources memEx stagingEx tcEx).set_writes[0]? = some w ∧
      b.descriptorType = (if (pipelineEx.info.buffers.get ⟨0, by decide⟩).is_storage
                          then DescriptorType.eStorageBuffer
                          else DescriptorType.eUniformBuffer) ∧
      w.descriptorType = b.descriptorType :=
  ⟨by decide,
   buffer_descriptor_types_agree pipelineEx memEx stagingEx tcEx 0 (by decide)⟩

/-- Witness: claim C5 evaluated at the fixture device and shader info. -/
theorem layout_builder_single_set_no_push_constants_witness :
    (desc_layout_ci infoEx).flags = DescriptorSetLayoutCreateFlags.ePushDescriptorKHR ∧
    (desc_layout_ci infoEx).pBindings = buildBindings infoEx ∧
    (layout_info failInstance infoEx).setLayoutCount = 1 ∧
    (layout_info failInstance infoEx).pSetLayouts =
      [failInstance.createDescriptorSetLayout (desc_layout_ci infoEx)] ∧
    (layout_info failInstance infoEx).pushConstantRangeCount = 0 ∧
    (layout_info failInstance infoEx).pPushConstantRanges = [] ∧
    ∀ b ∈ buildBindings infoEx,
      b.stageFlags = ShaderStageFlags.eCompute ∧ b.descriptorCount = 1 :=
  layout_builder_single_set_no_push_constants failInstance infoEx

/-- Witness: claim C6 evaluated at the fixture pipeline, buffer entry 0. -/
theorem onCpuWrite_precedes_staging_copy_witness :
    0 < pipelineEx.info.buffers.length ∧
    ∃ j offset,
      (pipelineEx.BindResources memEx stagingEx tcEx).trace[j]? =
        some (.onCpuWrite (pipelineEx.info.ReadUdBuffer
          (pipelineEx.info.buffers.get ⟨0, by decide⟩).sgpr_base
          (pipelineEx.info.buffers.get ⟨0, by decide⟩).dword_offset).base_address) ∧
      (pipelineEx.BindResources memEx stagingEx tcEx).trace[j + 1]? =
        some (.stagingCopy
          (pipelineEx.info.ReadUdBuffer
            (pipelineEx.info.buffers.get ⟨0, by decide⟩).sgpr_base
            (pipelineEx.info.buffers.get ⟨0, by decide⟩).dword_offset).base_address
          (pipelineEx.info.ReadUdBuffer
            (pipelineEx.info.buffers.get ⟨0, by decide⟩).sgpr_base
            (pipelineEx.info.buffers.get ⟨0, by decide⟩).dword_offset).GetSize offset) :=
  ⟨by decide,
   onCpuWrite_precedes_staging_copy pipelineEx memEx stagingEx tcEx 0 (by decide)⟩

/-- Witness: claim C8 evaluated at the fixture pipeline. -/
theorem image_sampler_handles_resolved_witness :
    (∀ i (hi : i < pipelineEx.info.images.length),
      ∃ w, (pipelineEx.BindResources memEx stagingEx
          tcEx).set_writes[pipelineEx.info.buffers.length + i]? = some w ∧
        w.pImageInfo = some ⟨VK_NULL_HANDLE,
          tcEx.FindImageView (pipelineEx.info.ReadUdImage
            (pipelineEx.info.images.get ⟨i, hi⟩).sgpr_base
            (pipelineEx.info.images.get ⟨i, hi⟩).dword_offset), ImageLayout.eGeneral⟩ ∧
        (pipelineEx.BindResources memEx stagingEx tcEx).image_infos[i]? =
          some ⟨VK_NULL_HANDLE,
            tcEx.FindImageView (pipelineEx.info.ReadUdImage
              (pipelineEx.info.images.get ⟨i, hi⟩).sgpr_base
              (pipelineEx.info.images.get ⟨i, hi⟩).dword_offset),
            ImageLayout.eGeneral⟩) ∧
    (∀ j (hj : j < pipelineEx.info.samplers.length),
      ∃ w, (pipelineEx.BindResources memEx stagingEx
          tcEx).set_writes[pipelineEx.info.buffers.length +
            pipelineEx.info.images.length + j]? = some w ∧
        w.pImageInfo = some ⟨tcEx.GetSampler
          (pipelineEx.info.ReadUdSampler
            (pipelineEx.info.samplers.get ⟨j, hj⟩).sgpr_base
            (pipelineEx.info.samplers.get ⟨j, hj⟩).dword_offset),
          VK_NULL_HANDLE, ImageLayout.eGeneral⟩ ∧
        (pipelineEx.BindResources memEx stagingEx
          tcEx).image_infos[pipelineEx.info.images.length + j]? =
          some ⟨tcEx.GetSampler
            (pipelineEx.info.ReadUdSampler
              (pipelineEx.info.samplers.get ⟨j, hj⟩).sgpr_base
              (pipelineEx.info.samplers.get ⟨j, hj⟩).dword_offset),
            VK_NULL_HANDLE, ImageLayout.eGeneral⟩) :=
  image_sampler_handles_resolved pipelineEx memEx stagingEx tcEx

end Vulkan
